import Mathlib

/-!
Verification of the optik EVM-world orchestrator and Echidna corpus bridge.

This file shallowly embeds the two source modules of the repository,
optik/common/world.py (the EVMWorld orchestrator) and
optik/echidna/interface.py (the corpus bridge), as executable Lean
definitions, and proves or refutes the frozen claims about them.

Modelling conventions:
  - Python lists used as stacks (call_stack, runtime_stack) are modelled as
    Lean lists with the TOP at the HEAD; the Python index [-1] is the head
    and [-2] is the second element.  The FIFO tx_queue has its front at the
    head.
  - Machine integers are Nat / Int; a 256-bit EVM constant Cst(256, v) is
    modelled as v mod 2^256.
  - Python exceptions are modelled explicitly: each state-mutating
    operation returns its (partially) updated state together with an
    optional error, since a raised exception in Python leaves all
    mutations performed so far in place.
  - External Maat engine state attached to a runtime frame is modelled by
    an explicit EngineState record holding exactly the fields that
    world.py reads or writes (EVM stack, memory writes, outgoing
    transaction, result of the last call, transaction result, code).
    What the engine itself does while running is an input (an oracle
    EngineStep), since the symbolic engine is an external collaborator.
-/

namespace Optik

/-! ## String helpers

The Python membership test on strings (needle in hay) is a substring test;
we implement it over the character lists of the strings. -/

/-- Boolean test that the list ns occurs at the start of hs. -/
def leadsList : List Char → List Char → Bool
  | [], _ => true
  | _ :: _, [] => false
  | a :: as, b :: bs => a = b && leadsList as bs

/-- Boolean substring test: does needle occur contiguously inside hay?
Mirrors the Python expression needle in hay on strings. -/
def hasSubList (hay needle : List Char) : Bool :=
  leadsList needle hay ||
    match hay with
    | [] => false
    | _ :: t => hasSubList t needle

/-- String-level substring test, Python arg_name in var. -/
def strContains (hay needle : String) : Bool :=
  hasSubList hay.data needle.data

/-! ## World model: shallow embedding of optik/common/world.py -/

namespace World

/-- EVM sub-transaction kinds (the Maat TX enum as used by world.py). -/
inductive TxType
  | CALL
  | CALLCODE
  | DELEGATECALL
  | CREATE
  | CREATE2
deriving DecidableEq, Repr

/-- The fields of an engine outgoing transaction that world.py reads.
The sender is already concretized (out_tx.sender.as_uint(vars)). -/
structure OutTx where
  txType : TxType
  sender : Nat
  recipient : Nat
  data : List Nat
  retOffset : Nat
  retLen : Nat
deriving DecidableEq, Repr

/-- contract(engine).transaction.result: the return data of a frame. -/
structure TxResult where
  returnData : List Nat
  returnDataSize : Nat
deriving DecidableEq, Repr

/-- The slice of a Maat engine (plus its attached EVM contract view) that
world.py reads or writes.  The EVM stack has its top at the head; memory
is modelled by the log of write_buffer calls (offset, bytes), newest
first, which is enough to observe whether and what the orchestrator
writes. -/
structure EngineState where
  stack : List Nat
  memWrites : List (Nat × List Nat)
  outgoingTx : Option OutTx
  resultFromLastCall : Option TxResult
  txResult : TxResult
  code : List Nat
deriving DecidableEq, Repr

/-- Engine state of a freshly forked runtime engine (new_evm_runtime):
empty stack, no writes, no outgoing transaction, no call result. -/
def EngineState.fresh : EngineState :=
  ⟨[], [], none, none, ⟨[], 0⟩, []⟩

/-- EVMRuntime: one frame; initState is the snapshot taken at birth and
revert() restores it (repeatably). -/
structure EVMRuntime where
  engine : EngineState
  initState : EngineState
deriving DecidableEq, Repr

/-- A fresh runtime as pushed by ContractRunner.push_runtime: the new
engine forked from the runner root engine, snapshot taken at birth.
The variable-context merge and transaction install performed by
EVMRuntime.__init__ touch only engine fields that world.py never reads
back, so they are not tracked. -/
def EVMRuntime.fresh : EVMRuntime :=
  ⟨EngineState.fresh, EngineState.fresh⟩

/-- The world-side AbstractTx, restricted to the fields the orchestrator
reads after construction: the recipient used for dispatch and the two
block-info increments.  (The wrapped EVMTransaction payload and the
variable context are handed to the engine, which is external.) -/
structure AbstractTx where
  recipient : Nat
  blockNumInc : Nat
  blockTimestampInc : Nat
deriving DecidableEq, Repr

/-- ContractRunner: address, nonce (starts at 1, EIP-161), the runtime
stack (head = top = current frame), and the init flag. -/
structure ContractRunner where
  address : Nat
  nonce : Nat
  runtimeStack : List EVMRuntime
  isInit : Bool
deriving DecidableEq, Repr

/-- Replace the engine of the top runtime of a runner (the effect of a
Python mutation of runner.current_runtime.engine).  No-op on an empty
runtime stack. -/
def setTopEngine (r : ContractRunner) (e : EngineState) : ContractRunner :=
  match r.runtimeStack with
  | [] => r
  | rt :: rest => { r with runtimeStack := { rt with engine := e } :: rest }

/-- Domain errors.  WorldException carries a message in Python; here each
raise site gets its own constructor.  keyError and indexError model the
raw Python KeyError / IndexError escaping from dict and list accesses. -/
inductive WErr
  | noMoreTransactions
  | noCurrentContract
  | noContractAt (addr : Nat)
  | deployCollision (addr : Nat)
  | unsupportedTxType
  | txTypeNotImplemented
  | bufferOverflow
  | keyError (addr : Nat)
  | indexError
  | attributeError
deriving DecidableEq, Repr

/-- EVMWorld state.  callStack top at head; txQueue front at head.
blockNum / blockTimestamp stand for the block info kept by the world
root engine. -/
structure EVMWorld where
  contracts : List (Nat × ContractRunner)
  callStack : List Nat
  txQueue : List AbstractTx
  currentTx : Option AbstractTx
  currentTxNum : Nat
  blockNum : Nat
  blockTimestamp : Nat
deriving DecidableEq, Repr

/-- Lookup in the contracts dict. -/
def getRunner : List (Nat × ContractRunner) → Nat → Option ContractRunner
  | [], _ => none
  | (k, r) :: t, a => if k = a then some r else getRunner t a

/-- Overwrite the runner bound to an existing address (the effect of a
Python mutation of a runner object reached through the dict).  Leaves the
dict unchanged if the address is absent. -/
def setRunner : List (Nat × ContractRunner) → Nat → ContractRunner →
    List (Nat × ContractRunner)
  | [], _, _ => []
  | (k, r0) :: t, a, r => if k = a then (k, r) :: t else (k, r0) :: setRunner t a r

/-- del contracts[a]. -/
def eraseRunner (cs : List (Nat × ContractRunner)) (a : Nat) :
    List (Nat × ContractRunner) :=
  cs.filter (fun p => ! (p.1 = a : Bool))

/-- A 256-bit constant Cst(256, v). -/
def cst256 (v : Nat) : Nat := v % 2 ^ 256

/-- Maat TX_RES exit statuses relevant to world.py. -/
inductive TxRes
  | Stop
  | Return
  | Revert
  | Invalid
deriving DecidableEq, Repr

/-- Engine stop reasons (Maat STOP): EXIT, NONE, and anything else. -/
inductive StopReason
  | EXIT
  | NONE
  | OTHER
deriving DecidableEq, Repr

/-- Modelled from the spec: compute_new_contract_addr (optik/common/util.py,
not under src/) derives the CREATE address from deployer and nonce with
RLP + Keccak; the spec declares this cryptography an out-of-scope helper,
so it is modelled as an explicit pairing of deployer and nonce. -/
def compute_new_contract_addr (deployer nonce : Nat) : Nat :=
  deployer * 2 ^ 64 + nonce

/-- EVMWorld._handle_CREATE (world.py lines 394-435).  Returns the updated
world together with an optional raised error; a raise leaves all
mutations performed so far in place, exactly as in Python.  Line order is
preserved: the CREATE2 branch raises BEFORE the nonce increment and
before deploy; the deploy collision check runs AFTER the nonce increment;
current_tx is read after the deploy. -/
def handleCREATE (w : EVMWorld) : EVMWorld × Option WErr :=
  match w.callStack with
  | [] => (w, some .noCurrentContract)
  | topAddr :: _ =>
    match getRunner w.contracts topAddr with
    | none => (w, some (.keyError topAddr))
    | some runner =>
      match runner.runtimeStack with
      | [] => (w, some .indexError)
      | rt :: _ =>
        match rt.engine.outgoingTx with
        | none => (w, some .attributeError)
        | some out =>
          match out.txType with
          | .CREATE =>
            let newAddr := compute_new_contract_addr out.sender runner.nonce
            -- Increment caller nonce (before deploy, after address computation)
            let w1 : EVMWorld :=
              { w with contracts :=
                  setRunner w.contracts topAddr { runner with nonce := runner.nonce + 1 } }
            -- deploy(..., run_init_bytecode=False): collision check, then insert
            match getRunner w1.contracts newAddr with
            | some _ => (w1, some (.deployCollision newAddr))
            | none =>
              let newRunner : ContractRunner :=
                { address := newAddr, nonce := 1, runtimeStack := [], isInit := false }
              let w2 : EVMWorld := { w1 with contracts := w1.contracts ++ [(newAddr, newRunner)] }
              -- create_tx reads self.current_tx (AttributeError if None)
              match w2.currentTx with
              | none => (w2, some .attributeError)
              | some _ =>
                -- push a fresh runtime on the new runner, then push the call stack
                let w3 : EVMWorld :=
                  { w2 with contracts :=
                      (setRunner w2.contracts newAddr
                        { newRunner with runtimeStack := [EVMRuntime.fresh] }) }
                ({ w3 with callStack := newAddr :: w3.callStack }, none)
          | _ => (w, some .txTypeNotImplemented)

/-- EVMWorld._handle_CREATE_after (world.py lines 437-468).  On success,
mark the runner initialized and install the runtime bytecode from the
transaction result; on failure, delete the runner from contracts and use
0 as the CREATE result.  Then, if the call stack holds more than one
frame, push the result as a 256-bit constant on the caller engine stack. -/
def handleCREATEAfter (succeeded : Bool) (w : EVMWorld) : EVMWorld × Option WErr :=
  match w.callStack with
  | [] => (w, some .noCurrentContract)
  | topAddr :: rest =>
    match getRunner w.contracts topAddr with
    | none => (w, some (.keyError topAddr))
    | some runner =>
      match runner.runtimeStack with
      | [] => (w, some .indexError)
      | rt :: _ =>
        let res : EVMWorld × Nat :=
          if succeeded then
            let runner1 := setTopEngine { runner with isInit := true }
              { rt.engine with code := rt.engine.txResult.returnData }
            ({ w with contracts := setRunner w.contracts topAddr runner1 }, runner.address)
          else
            ({ w with contracts := eraseRunner w.contracts topAddr }, 0)
        match rest with
        | [] => (res.1, none)
        | callerAddr :: _ =>
          match getRunner res.1.contracts callerAddr with
          | none => (res.1, some (.keyError callerAddr))
          | some cr =>
            match cr.runtimeStack with
            | [] => (res.1, some .indexError)
            | crt :: _ =>
              let cr1 := setTopEngine cr
                { crt.engine with stack := cst256 res.2 :: crt.engine.stack }
              ({ res.1 with contracts := setRunner res.1.contracts callerAddr cr1 }, none)

/-- EVMWorld._handle_CALL (world.py lines 470-494): look up the recipient
runner (WorldException if absent), build a sub-transaction AbstractTx
inheriting the block increments of the top-level current_tx, push a fresh
runtime on the recipient and push its address on the call stack. -/
def handleCALL (w : EVMWorld) : EVMWorld × Option WErr :=
  match w.callStack with
  | [] => (w, some .noCurrentContract)
  | topAddr :: _ =>
    match getRunner w.contracts topAddr with
    | none => (w, some (.keyError topAddr))
    | some runner =>
      match runner.runtimeStack with
      | [] => (w, some .indexError)
      | rt :: _ =>
        match rt.engine.outgoingTx with
        | none => (w, some .attributeError)
        | some out =>
          match getRunner w.contracts out.recipient with
          | none => (w, some (.noContractAt out.recipient))
          | some target =>
            match w.currentTx with
            | none => (w, some .attributeError)
            | some _ =>
              let target1 := { target with runtimeStack := EVMRuntime.fresh :: target.runtimeStack }
              let w1 : EVMWorld :=
                { w with contracts := setRunner w.contracts out.recipient target1 }
              ({ w1 with callStack := target.address :: w1.callStack }, none)

/-- EVMWorld._handle_CALL_after (world.py lines 496-515) on the caller
contract view: FIRST push the success flag as a 256-bit constant on the
caller stack, THEN raise if the callee returned more bytes than the
ret_len buffer the caller allocated, otherwise write the return data in
the caller memory at ret_offset.  Accessing a missing
outgoing_transaction or result_from_last_call is a Python
AttributeError. -/
def handleCALLAfter (caller : EngineState) (succeeded : Bool) :
    EngineState × Option WErr :=
  let caller1 := { caller with stack := cst256 (if succeeded then 1 else 0) :: caller.stack }
  match caller1.outgoingTx, caller1.resultFromLastCall with
  | some ot, some r =>
    if ot.retLen < r.returnDataSize then
      (caller1, some .bufferOverflow)
    else
      ({ caller1 with memWrites := (ot.retOffset, r.returnData) :: caller1.memWrites }, none)
  | _, _ => (caller1, some .attributeError)

/-- One engine stop observation: what EVMRuntime.run() returned this
iteration, together with the state the (external) engine left its frame
in.  The orchestrator reads stop and exit_status from Info and everything
else through contract(engine). -/
structure EngineStep where
  newEngine : EngineState
  stop : StopReason
  exitStatus : TxRes
deriving DecidableEq, Repr

/-- Outcome of one iteration of the EVMWorld.run while loop. -/
inductive IterOut
  | next
  | halted (s : StopReason)
  | errored (e : WErr)
  | finished
deriving DecidableEq, Repr

/-- Lines 324-334: when the call stack holds at least two frames, copy the
transaction result of the exiting frame into the result_from_last_call
of the caller engine (the top runtime of the contract at call_stack[-2]),
and record is_msg_call_return.  A missing caller runner or an empty
caller runtime stack is a raw Python KeyError / IndexError. -/
def exitSetCallerResult (st : EngineStep) (w : EVMWorld) (rest : List Nat) :
    EVMWorld × Bool × Option WErr :=
  match rest with
  | [] => (w, false, none)
  | callerAddr :: _ =>
    match getRunner w.contracts callerAddr with
    | none => (w, false, some (.keyError callerAddr))
    | some cr =>
      match cr.runtimeStack with
      | [] => (w, false, some .indexError)
      | crt :: crts =>
        let cr1 := { cr with runtimeStack :=
          { crt with engine := { crt.engine with
              resultFromLastCall := some st.newEngine.txResult } } :: crts }
        ({ w with contracts := setRunner w.contracts callerAddr cr1 }, true, none)

/-- Lines 339-340: rt.revert() on a REVERT exit status restores the
snapshot of the current frame. -/
def exitRevert (w : EVMWorld) (topAddr : Nat) : EVMWorld :=
  match getRunner w.contracts topAddr with
  | none => w
  | some r =>
    match r.runtimeStack with
    | [] => w
    | rt :: rts =>
      { w with contracts := (setRunner w.contracts topAddr
          { r with runtimeStack := { rt with engine := rt.initState } :: rts }) }

/-- Lines 343-347: run _handle_CREATE_after when the current contract has
not finished initializing. -/
def exitCreateHook (succeeded : Bool) (w : EVMWorld) (topAddr : Nat) :
    EVMWorld × Option WErr :=
  match getRunner w.contracts topAddr with
  | none => (w, some (.keyError topAddr))
  | some r =>
    if r.isInit then (w, none) else handleCREATEAfter succeeded w

/-- Line 350: self.current_contract.pop_runtime().  The current_contract
property performs a fresh dict lookup, so when the CREATE failure path
just deleted the current contract this is a raw Python KeyError. -/
def exitPopRuntime (w : EVMWorld) (topAddr : Nat) : EVMWorld × Option WErr :=
  match getRunner w.contracts topAddr with
  | none => (w, some (.keyError topAddr))
  | some r =>
    ({ w with contracts := (setRunner w.contracts topAddr
        { r with runtimeStack := r.runtimeStack.tail }) }, none)

/-- Lines 353-368: for message-call returns, run _handle_CALL_after when
the caller outgoing transaction is of CALL/CALLCODE/DELEGATECALL kind
(accessing a missing outgoing transaction is an AttributeError), then
reset the caller outgoing transaction; a raise from _handle_CALL_after
skips the reset but keeps the mutations it already made. -/
def exitCallHook (succeeded : Bool) (w : EVMWorld) (rest : List Nat)
    (isMsgCallReturn : Bool) : EVMWorld × Option WErr :=
  if isMsgCallReturn then
    match rest with
    | [] => (w, some .indexError)
    | callerAddr :: _ =>
      match getRunner w.contracts callerAddr with
      | none => (w, some (.keyError callerAddr))
      | some cr =>
        match cr.runtimeStack with
        | [] => (w, some .indexError)
        | crt :: crts =>
          match crt.engine.outgoingTx with
          | none => (w, some .attributeError)
          | some ot =>
            let afterCall : EngineState × Option WErr :=
              if ot.txType = TxType.CALL || ot.txType = TxType.CALLCODE
                  || ot.txType = TxType.DELEGATECALL then
                handleCALLAfter crt.engine succeeded
              else (crt.engine, none)
            let engine1 := { afterCall.1 with outgoingTx := none }
            let cr1 := { cr with runtimeStack := { crt with engine :=
              (if afterCall.2.isSome then afterCall.1 else engine1) } :: crts }
            ({ w with contracts := setRunner w.contracts callerAddr cr1 },
              afterCall.2)
  else (w, none)

/-- The STOP.EXIT branch of EVMWorld.run (world.py lines 317-371), entered
with the frame engine already holding the post-run engine state, in
source order: compute succeeded; copy the transaction result to the
caller; revert on REVERT; post-CREATE hook while uninitialized; pop the
runtime; post-CALL hook for message-call returns; pop the call stack. -/
def exitStep (st : EngineStep) (w : EVMWorld) : EVMWorld × IterOut :=
  match w.callStack with
  | [] => (w, .errored .noCurrentContract)
  | topAddr :: rest =>
    let succeeded : Bool := st.exitStatus = TxRes.Stop || st.exitStatus = TxRes.Return
    match exitSetCallerResult st w rest with
    | (w1, _, some e) => (w1, .errored e)
    | (w1, isMsgCallReturn, none) =>
      let w2 : EVMWorld :=
        if st.exitStatus = TxRes.Revert then exitRevert w1 topAddr else w1
      match exitCreateHook succeeded w2 topAddr with
      | (w3, some e) => (w3, .errored e)
      | (w3, none) =>
        match exitPopRuntime w3 topAddr with
        | (w4, some e) => (w4, .errored e)
        | (w4, none) =>
          match exitCallHook succeeded w4 rest isMsgCallReturn with
          | (w5, some e) => (w5, .errored e)
          | (w5, none) => ({ w5 with callStack := w5.callStack.tail }, .next)

/-- Phase (a) of the run loop body (world.py lines 288-310): when the call
stack is empty, dequeue the next transaction, increment current_tx_num,
look up the recipient runner (WorldException if absent), push a fresh
runtime, push the call stack, and apply the block-info increments to the
world root engine.  The monitor events fired here are observers with no
world state of their own and are not tracked. -/
def phaseA (w : EVMWorld) : EVMWorld × Option WErr :=
  match w.callStack with
  | _ :: _ => (w, none)
  | [] =>
    match w.txQueue with
    | [] => (w, some .noMoreTransactions)
    | tx :: restQ =>
      let w1 : EVMWorld :=
        { w with txQueue := restQ, currentTx := some tx,
                 currentTxNum := w.currentTxNum + 1 }
      match getRunner w1.contracts tx.recipient with
      | none => (w1, some (.noContractAt tx.recipient))
      | some runner =>
        let runner1 := { runner with runtimeStack := EVMRuntime.fresh :: runner.runtimeStack }
        ({ w1 with contracts := setRunner w1.contracts tx.recipient runner1,
                   callStack := tx.recipient :: w1.callStack,
                   blockNum := w1.blockNum + tx.blockNumInc,
                   blockTimestamp := w1.blockTimestamp + tx.blockTimestampInc }, none)

/-- Phase (b) of the run loop body (world.py lines 312-390): run the
current frame (the oracle step gives the engine state it stops in),
then dispatch on the stop reason.  A STOP.NONE stop with an outgoing
transaction increments current_tx_num BEFORE dispatching on the type, so
the increment also happens for unsupported kinds that then raise. -/
def phaseB (st : EngineStep) (w : EVMWorld) : EVMWorld × IterOut :=
  match w.callStack with
  | [] => (w, .errored .noCurrentContract)
  | topAddr :: _ =>
    match getRunner w.contracts topAddr with
    | none => (w, .errored (.keyError topAddr))
    | some runner =>
      match runner.runtimeStack with
      | [] => (w, .errored .indexError)
      | _ :: _ =>
        let w1 : EVMWorld :=
          { w with contracts := (setRunner w.contracts topAddr
              (setTopEngine runner st.newEngine)) }
        match st.stop with
        | .EXIT => exitStep st w1
        | .NONE =>
          match st.newEngine.outgoingTx with
          | none => (w1, .halted .NONE)
          | some out =>
            let w2 : EVMWorld := { w1 with currentTxNum := w1.currentTxNum + 1 }
            match out.txType with
            | .CREATE | .CREATE2 =>
              match handleCREATE w2 with
              | (w3, none) => (w3, .next)
              | (w3, some e) => (w3, .errored e)
            | .CALL =>
              match handleCALL w2 with
              | (w3, none) => (w3, .next)
              | (w3, some e) => (w3, .errored e)
            | _ => (w2, .errored .unsupportedTxType)
        | .OTHER => (w1, .halted .OTHER)

/-- One iteration of the while loop of EVMWorld.run: nothing happens when
both the transaction queue and the call stack are empty (the while
condition fails); otherwise phase (a) then phase (b). -/
def loopIter (st : EngineStep) (w : EVMWorld) : EVMWorld × IterOut :=
  if w.txQueue = [] ∧ w.callStack = [] then (w, .finished)
  else
    match phaseA w with
    | (w1, some e) => (w1, .errored e)
    | (w1, none) => phaseB st w1

/-- EVMWorld.run driven by a list of oracle engine steps: iterate the loop
body until the oracle is exhausted or the iteration halts, errors or
finishes. -/
def runLoop : List EngineStep → EVMWorld → EVMWorld
  | [], w => w
  | st :: rest, w =>
    match loopIter st w with
    | (w1, .next) => runLoop rest w1
    | (w1, _) => w1

/-- The address-to-nonce view of the contracts map; used to state that an
operation neither deploys nor removes a contract nor touches a nonce. -/
def noncesOf (cs : List (Nat × ContractRunner)) : List (Nat × Nat) :=
  cs.map (fun p => (p.1, p.2.nonce))

/-- The iteration dequeues a top-level transaction exactly when the call
stack is empty and the queue is not. -/
def dequeueCount (w : EVMWorld) : Nat :=
  if w.callStack = [] ∧ w.txQueue ≠ [] then 1 else 0

/-- Whether phase (b) reaches the engine run (a current contract with a
live runtime exists). -/
def phaseBReady (w : EVMWorld) : Bool :=
  match w.callStack with
  | [] => false
  | a :: _ =>
    match getRunner w.contracts a with
    | none => false
    | some r =>
      match r.runtimeStack with
      | [] => false
      | _ :: _ => true

/-- One when phase (b), run on the given world, observes an engine stop
with reason NONE and a non-null outgoing transaction. -/
def subcallFlagB (st : EngineStep) (w : EVMWorld) : Nat :=
  if phaseBReady w = true ∧ st.stop = StopReason.NONE ∧
      st.newEngine.outgoingTx ≠ none then 1 else 0

/-- The iteration counts one nested sub-call exactly when the frame run is
reached and the engine stops with reason NONE holding an outgoing
transaction (whatever its type, supported or not). -/
def subcallCount (st : EngineStep) (w : EVMWorld) : Nat :=
  if ¬(w.txQueue = [] ∧ w.callStack = []) ∧ (phaseA w).2 = none then
    subcallFlagB st (phaseA w).1
  else 0

/-- The CREATE sub-transaction of the C1 witness, issued by the deployer
at address 10. -/
def c1Out : OutTx := ⟨TxType.CREATE, 10, 0, [1], 0, 0⟩

/-- The deployer frame of the C1 witness, suspended on its outgoing
CREATE. -/
def c1Rt : EVMRuntime :=
  ⟨{ EngineState.fresh with outgoingTx := some c1Out }, EngineState.fresh⟩

/-- The deployer runner of the C1 witness: address 10, nonce 1. -/
def c1Runner : ContractRunner := ⟨10, 1, [c1Rt], true⟩

/-- One-contract world of the C1 witness, mid-transaction. -/
def c1World : EVMWorld := ⟨[(10, c1Runner)], [10], [], some ⟨10, 0, 0⟩, 1, 0, 0⟩

/-- Constructor exit observation of the C1 witness: EXIT with REVERT. -/
def c1Step : EngineStep := ⟨EngineState.fresh, StopReason.EXIT, TxRes.Revert⟩

/-- Concrete one-contract world for the C2 witness: contract 10 with nonce
1, one live frame, already on the call stack. -/
def c2World : EVMWorld :=
  ⟨[(10, ⟨10, 1, [EVMRuntime.fresh], true⟩)], [10], [], none, 1, 0, 0⟩

/-- Concrete engine step for the C2 witness: the frame suspends with an
outgoing DELEGATECALL. -/
def c2Step : EngineStep :=
  ⟨{ EngineState.fresh with
      outgoingTx := some ⟨TxType.DELEGATECALL, 10, 0, [], 0, 0⟩ },
    StopReason.NONE, TxRes.Stop⟩

end World

/-! ## Corpus bridge: shallow embedding of optik/echidna/interface.py

JSON conventions of the embedding: the tagged-union argument values are a
sum type with one variant per tag plus a variant for any other tag (which
the code rejects); decimal or hex string scalars are modelled by the
integers they denote (the code parses them with int(s) / int(s, 16) and
re-emits them in the same base); the base64 string of AbiBytes is
modelled by its decoded octet list, so the out-of-src helpers
echidna_parse_bytes / echidna_encode_bytes (spec 4.7: bytes are decoded
and reassembled octet-by-octet) become identities. -/

namespace Echidna

/-- Maat VarContext: an insertion-ordered map from variable name to
(concrete value, bit size).  set overwrites an existing binding in
place or appends; contained_vars lists the names; get is partial (the
source always guards get with contains, and an unguarded get on a
missing name raises, modelled as returning none and the caller erroring). -/
structure VarContext where
  entries : List (String × Int × Nat)
deriving DecidableEq, Repr

def VarContext.empty : VarContext := ⟨[]⟩

def VarContext.getEntry (c : VarContext) (n : String) : Option (Int × Nat) :=
  (c.entries.find? (fun p => p.1 = n)).map (fun p => p.2)

def VarContext.get (c : VarContext) (n : String) : Option Int :=
  (c.getEntry n).map (fun p => p.1)

def VarContext.contains (c : VarContext) (n : String) : Bool :=
  (c.get n).isSome

def VarContext.containedVars (c : VarContext) : List String :=
  c.entries.map (fun p => p.1)

def VarContext.setRec : List (String × Int × Nat) → String → Int → Nat →
    List (String × Int × Nat)
  | [], n, v, sz => [(n, v, sz)]
  | e :: t, n, v, sz => if e.1 = n then (n, v, sz) :: t else e :: setRec t n v sz

def VarContext.set (c : VarContext) (n : String) (v : Int) (sz : Nat) : VarContext :=
  ⟨VarContext.setRec c.entries n v sz⟩

/-- Maat Value: either a named symbolic variable or a concrete constant,
with a bit size. -/
inductive Value
  | var (size : Nat) (name : String)
  | cst (size : Nat) (value : Int)
deriving DecidableEq, Repr

def Value.name : Value → String
  | .var _ n => n
  | .cst _ _ => ""

def Value.size : Value → Nat
  | .var s _ => s
  | .cst s _ => s

/-- The Python value produced by translate_argument: an int, a byte list,
a bool, or a list of translated element values. -/
inductive TValue
  | int (v : Int)
  | bytes (b : List Int)
  | bool (b : Bool)
  | list (vs : List TValue)

/-- Echidna ABI argument, one variant per JSON tag.  The declared
element-type field of AbiArray (contents[1]) and AbiArrayDynamic
(contents[0]) is kept opaque as a string because the code never parses
it. -/
inductive AbiArg
  | abiUInt (bits : Nat) (value : Int)
  | abiInt (bits : Nat) (value : Int)
  | abiAddress (value : Int)
  | abiBytes (len : Nat) (octets : List Int)
  | abiBool (value : Bool)
  | abiArray (numElems : Nat) (declaredType : String) (elems : List AbiArg)
  | abiArrayDynamic (declaredType : String) (elems : List AbiArg)
  | abiTuple (elems : List AbiArg)
  | abiOther (tag : String)

/-- EchidnaException / GenericException raise sites. -/
inductive EErr
  | unsupportedArgTag (tag : String)
  | unsupportedTxTag (tag : String)
  | indexError
  | missingVar (name : String)
  | filenameExhausted
deriving DecidableEq, Repr

/-- Modelled from the spec: echidna_parse_bytes (optik/common/util.py, not
under src/) decodes the base64 contents string to its octets; with octet
lists as the representation it is the identity. -/
def echidna_parse_bytes (b : List Int) : List Int := b

/-- Modelled from the spec: echidna_encode_bytes (optik/common/util.py,
not under src/) re-encodes octets to the base64 contents string; the
identity under this representation. -/
def echidna_encode_bytes (b : List Int) : List Int := b

/-- Modelled from the spec: twos_complement_convert (optik/common/util.py,
not under src/); spec 4.7: signed integers round-trip through
two-complement conversion to the declared bit width, so a raw value with
the top bit set maps to its negative representative. -/
def twos_complement_convert (v : Int) (bits : Nat) : Int :=
  if 2 ^ (bits - 1) ≤ v then v - 2 ^ bits else v

/-- Modelled from the spec: int_to_bool (optik/common/util.py, not under
src/); spec 4.7: booleans round-trip through an integer-to-bool
projection, zero mapping to false. -/
def int_to_bool (v : Int) : Bool := v ≠ 0

/-- Comma-join for ABI type strings. -/
def joinComma : List String → String
  | [] => ""
  | [s] => s
  | s :: rest => s ++ "," ++ joinComma rest

mutual

/-- translate_argument (interface.py lines 65-127): translate one parsed
Echidna argument to a (abi type string, value) pair; unsupported tags
raise EchidnaException.  The array branches derive their element type
from the translation of the first element (parse_array), never from the
declared type field. -/
def translate_argument : AbiArg → Except EErr (String × TValue)
  | .abiUInt bits v => .ok ("uint" ++ toString bits, .int v)
  | .abiInt bits v => .ok ("int" ++ toString bits, .int v)
  | .abiAddress v => .ok ("address", .int v)
  | .abiBytes len b => .ok ("bytes" ++ toString len, .bytes (echidna_parse_bytes b))
  | .abiBool b => .ok ("bool", .bool b)
  | .abiArray numElems _ elems =>
    match translate_list elems with
    | .error e => .error e
    | .ok el =>
      match el with
      | [] => .error .indexError
      | (t, _) :: _ =>
        .ok (t ++ "[" ++ toString numElems ++ "]", .list (el.map (fun p => p.2)))
  | .abiArrayDynamic _ elems =>
    match translate_list elems with
    | .error e => .error e
    | .ok el =>
      match el with
      | [] => .error .indexError
      | (t, _) :: _ => .ok (t ++ "[]", .list (el.map (fun p => p.2)))
  | .abiTuple elems =>
    match translate_list elems with
    | .error e => .error e
    | .ok el =>
      .ok ("(" ++ joinComma (el.map (fun p => p.1)) ++ ")",
        .list (el.map (fun p => p.2)))
  | .abiOther tag => .error (.unsupportedArgTag tag)

/-- The element-wise translation loop shared by parse_array, parse_tuple
and the argument loop of load_tx: translate each element in order,
propagating the first raised exception. -/
def translate_list : List AbiArg → Except EErr (List (String × TValue))
  | [] => .ok []
  | a :: rest =>
    match translate_argument a with
    | .error e => .error e
    | .ok r =>
      match translate_list rest with
      | .error e => .error e
      | .ok rs => .ok (r :: rs)

end

/-- parse_array (interface.py lines 25-42): translate all elements, then
take the abi type of element 0 (an IndexError on an empty array), and
return it with the element values. -/
def parse_array (arr : List AbiArg) : Except EErr (String × List TValue) :=
  match translate_list arr with
  | .error e => .error e
  | .ok el =>
    match el with
    | [] => .error .indexError
    | (t, _) :: _ => .ok (t, el.map (fun p => p.2))

/-- The symbolic call data returned by the ABI encoder, kept opaque as the
record of what was passed in. -/
structure CallData where
  funcName : String
  signature : String
  txName : String
  args : List TValue

mutual

/-- Modelled from the spec: seeding of argument variables by the ABI
encoder (spec 4.7): scalars seed a variable named the argument name;
byte arguments seed one 8-bit variable per octet named name_k; tuple and
array elements recurse under name_j.  Bit sizes other than the octet
size are not tracked (no claim reads them). -/
def seedValue (name : String) : TValue → List (String × Int × Nat)
  | .int v => [(name, v, 256)]
  | .bool b => [(name, if b then 1 else 0, 256)]
  | .bytes bs =>
    (List.range bs.length).zip bs |>.map
      (fun p => (name ++ "_" ++ toString p.1, p.2, 8))
  | .list vs => seedList name 0 vs

/-- Element-wise seeding for tuple and array values. -/
def seedList (name : String) (i : Nat) : List TValue → List (String × Int × Nat)
  | [] => []
  | v :: rest =>
    seedValue (name ++ "_" ++ toString i) v ++ seedList name (i + 1) rest

end

/-- Top-level argument seeding: argument i is named txName ++ "_arg" ++ i
(no separating underscore before the index). -/
def seedArgs (txName : String) (i : Nat) : List TValue → List (String × Int × Nat)
  | [] => []
  | v :: rest =>
    seedValue (txName ++ "_arg" ++ toString i) v ++ seedArgs txName (i + 1) rest

/-- Modelled from the spec: function_call (optik/common/abi.py, not under
src/) is the black-box ABI call encoder (spec sections 1 and 4.7).  It
returns symbolic call data for the call and registers seed values in the
context for variables named txName_arg0, txName_arg1, ... with the
recursive sub-naming of seedValue. -/
def function_call (funcName signature : String) (ctx : VarContext)
    (txName : String) (args : List TValue) : CallData × VarContext :=
  (⟨funcName, signature, txName, args⟩,
    ⟨ctx.entries ++ seedArgs txName 0 args⟩)

/-- The _call field of an Echidna JSON transaction: the tag (load_tx only
accepts SolCall), the function name (contents[0]), and the argument list
(contents[1]) when contents has more than one element. -/
structure EchidnaCall where
  tag : String
  name : String
  args : Option (List AbiArg)

/-- An Echidna JSON transaction restricted to the keys the bridge reads:
_call, _src, _dst, _value, the primed gas and gasprice keys, and _delay
as the pair (timestamp increment, block number increment), each hex
string modelled by its value. -/
structure EchidnaTx where
  call : EchidnaCall
  src : Int
  dst : Int
  value : Int
  gas : Int
  gasprice : Int
  delay : Int × Int

/-- The AbstractTx assembled by load_tx: the EVM transaction, the two
block increment values and the seeded variable context. -/
structure EVMTransaction where
  origin : Value
  sender : Value
  recipient : Int
  value : Value
  data : CallData
  gas_price : Value
  gas_limit : Value

structure AbstractTx where
  tx : EVMTransaction
  block_num_inc : Value
  block_timestamp_inc : Value
  ctx : VarContext

/-- load_tx (interface.py lines 130-191): reject any _call tag other than
SolCall; translate the arguments when an argument list is present; build
the signature; encode the call (seeding argument variables); create and
seed the block-increment, sender and value variables (the timestamp seed
uses the bit size of the block-number variable, as in the source); use
the sender variable for BOTH origin and sender; keep gas limit and gas
price as 256-bit constants from the primed JSON keys. -/
def load_tx (tx : EchidnaTx) (txName : String) : Except EErr AbstractTx :=
  if tx.call.tag ≠ "SolCall" then .error (.unsupportedTxTag tx.call.tag)
  else
    match (match tx.call.args with
           | none => Except.ok []
           | some args => translate_list args) with
    | .error e => .error e
    | .ok translated =>
      let argTypes := translated.map (fun p => p.1)
      let argValues := translated.map (fun p => p.2)
      let funcSignature := "(" ++ joinComma argTypes ++ ")"
      let encoded := function_call tx.call.name funcSignature VarContext.empty
        txName argValues
      let blockNumInc := Value.var 256 (txName ++ "_block_num_inc")
      let blockTimestampInc := Value.var 256 (txName ++ "_block_timestamp_inc")
      let ctx := encoded.2.set blockNumInc.name tx.delay.2 blockNumInc.size
      let ctx := ctx.set blockTimestampInc.name tx.delay.1 blockNumInc.size
      let sender := Value.var 160 (txName ++ "_sender")
      let ctx := ctx.set sender.name tx.src sender.size
      let valueVar := Value.var 256 (txName ++ "_value")
      let ctx := ctx.set valueVar.name tx.value valueVar.size
      let gasLimit := Value.cst 256 tx.gas
      let gasPrice := Value.cst 256 tx.gasprice
      .ok ⟨⟨sender, sender, tx.dst, valueVar, encoded.1, gasPrice, gasLimit⟩,
        blockNumInc, blockTimestampInc, ctx⟩

/-- The byte loop of the AbiBytes branch of update_argument: for i in
range(length), overwrite octet i with model value masked to 8 bits when
the model contains name_i; Python raises IndexError when the declared
length exceeds the actual octet count and such an octet is addressed.
Returns the (partially) updated octets and the optional error. -/
def updateBytes (m : VarContext) (argName : String) :
    List Int → Nat → Nat → List Int × Option EErr
  | val, _, 0 => (val, none)
  | val, i, steps + 1 =>
    let byteName := argName ++ "_" ++ toString i
    if m.contains byteName then
      match m.get byteName with
      | none => (val, some (.missingVar byteName))
      | some v =>
        if i < val.length then
          updateBytes m argName (val.set i (v % 256)) (i + 1) steps
        else (val, some .indexError)
    else updateBytes m argName val (i + 1) steps

mutual

/-- update_argument (interface.py lines 207-262): return early (argument
untouched) unless SOME model variable contains arg_name as a substring;
then dispatch on the tag, overwriting scalars from the model (a get on a
name the model does not actually contain raises), reassembling bytes
octet-by-octet keyed on exact containment of name_i, and recursing into
tuple and array elements under name_i.  The returned argument is the
in-place state of the argument after the call, also when an error is
raised part-way. -/
def update_argument (arg : AbiArg) (argName : String) (m : VarContext) :
    AbiArg × Option EErr :=
  if (m.containedVars.all (fun v => ! strContains v argName)) then (arg, none)
  else
    match arg with
    | .abiUInt bits _ =>
      match m.get argName with
      | none => (arg, some (.missingVar argName))
      | some nv => (.abiUInt bits nv, none)
    | .abiInt bits _ =>
      match m.get argName with
      | none => (arg, some (.missingVar argName))
      | some nv => (.abiInt bits (twos_complement_convert nv bits), none)
    | .abiBool _ =>
      match m.get argName with
      | none => (arg, some (.missingVar argName))
      | some nv => (.abiBool (int_to_bool nv), none)
    | .abiAddress _ =>
      match m.get argName with
      | none => (arg, some (.missingVar argName))
      | some nv => (.abiAddress nv, none)
    | .abiBytes len octets =>
      match updateBytes m argName (echidna_parse_bytes octets) 0 len with
      | (_, some e) => (.abiBytes len octets, some e)
      | (newOctets, none) => (.abiBytes len (echidna_encode_bytes newOctets), none)
    | .abiTuple elems =>
      match update_arg_list elems argName "_" 0 m with
      | (elems1, err) => (.abiTuple elems1, err)
    | .abiArray numElems declared elems =>
      match update_arg_list elems argName "_" 0 m with
      | (elems1, err) => (.abiArray numElems declared elems1, err)
    | .abiArrayDynamic declared elems =>
      match update_arg_list elems argName "_" 0 m with
      | (elems1, err) => (.abiArrayDynamic declared elems1, err)
    | .abiOther tag => (arg, some (.unsupportedArgTag tag))

/-- The enumerate loops of update_argument and update_tx: element i is
updated in place under the name base ++ sep ++ i; a raised exception
stops the loop, leaving the remaining elements untouched. -/
def update_arg_list (elems : List AbiArg) (base sep : String) (i : Nat)
    (m : VarContext) : List AbiArg × Option EErr :=
  match elems with
  | [] => ([], none)
  | a :: rest =>
    match update_argument a (base ++ sep ++ toString i) m with
    | (a1, some e) => (a1 :: rest, some e)
    | (a1, none) =>
      match update_arg_list rest base sep (i + 1) m with
      | (rest1, err) => (a1 :: rest1, err)

end

/-- update_tx (interface.py lines 265-303).  Python copies the transaction
dict SHALLOWLY (tx.copy()), so the nested argument dicts and the _delay
list stay shared with the dict passed by the caller, while the top-level
_src and _value keys are rebound only in the copy.  The embedding makes
this mutation visible by returning BOTH the result (or the raised error)
and the state of the original dict after the call.  Reading contents[1]
of a _call whose contents holds only the function name is a Python
IndexError. -/
def update_tx (tx : EchidnaTx) (m : VarContext) (txName : String) :
    Except EErr EchidnaTx × EchidnaTx :=
  match tx.call.args with
  | none => (.error .indexError, tx)
  | some args =>
    match update_arg_list args (txName ++ "_arg") "" 0 m with
    | (args1, some e) =>
      (.error e, { tx with call := { tx.call with args := some args1 } })
    | (args1, none) =>
      let blockNumName := txName ++ "_block_num_inc"
      let blockTimestampName := txName ++ "_block_timestamp_inc"
      let newDelay : Int × Int :=
        ((if m.contains blockTimestampName
          then (m.get blockTimestampName).getD tx.delay.1 else tx.delay.1),
         (if m.contains blockNumName
          then (m.get blockNumName).getD tx.delay.2 else tx.delay.2))
      let shared : EchidnaTx :=
        { tx with call := { tx.call with args := some args1 }, delay := newDelay }
      let senderName := txName ++ "_sender"
      let valueName := txName ++ "_value"
      let result : EchidnaTx :=
        { shared with
          src := (if m.contains senderName
                  then (m.get senderName).getD shared.src else shared.src),
          value := (if m.contains valueName
                    then (m.get valueName).getD shared.value else shared.value) }
      (.ok result, shared)

/-- get_available_filename (interface.py lines 330-344), with the
file-existence predicate as an input.  The while loop increments num
while the candidate name exists and num < 100000; a GenericException is
raised when num reaches 100000.  The loop is unrolled with fuel, which
the bound num < 100000 keeps from running out. -/
def fname (pre suff : String) (num : Nat) : String :=
  pre ++ "_" ++ toString num ++ suff

def find_free (ex : String → Bool) (pre suff : String) : Nat → Nat → Nat
  | num, 0 => num
  | num, fuel + 1 =>
    if ex (fname pre suff num) && decide (num < 100000) then
      find_free ex pre suff (num + 1) fuel
    else num

def get_available_filename (ex : String → Bool) (pre suff : String) :
    Except EErr String :=
  let num := find_free ex pre suff 0 100001
  if 100000 ≤ num then .error .filenameExhausted
  else .ok (fname pre suff num)

/-- Concrete transaction for the C10 witness. -/
def c10Tx : EchidnaTx :=
  ⟨⟨"SolCall", "f", some []⟩, 17, 4096, 0, 1000, 2, (5, 6)⟩

/-- The AbstractTx that load_tx produces from c10Tx under the name tx0. -/
def c10Loaded : AbstractTx :=
  ⟨⟨Value.var 160 "tx0_sender", Value.var 160 "tx0_sender", 4096,
    Value.var 256 "tx0_value", ⟨"f", "()", "tx0", []⟩,
    Value.cst 256 2, Value.cst 256 1000⟩,
  Value.var 256 "tx0_block_num_inc", Value.var 256 "tx0_block_timestamp_inc",
  ⟨[("tx0_block_num_inc", 6, 256), ("tx0_block_timestamp_inc", 5, 256),
    ("tx0_sender", 17, 160), ("tx0_value", 0, 256)]⟩⟩

/-- Concrete transaction with one argument for the C5 witness. -/
def c5Tx : EchidnaTx :=
  ⟨⟨"SolCall", "f", some [AbiArg.abiUInt 8 1]⟩, 1, 2, 3, 4, 5, (6, 7)⟩

/-- A transaction whose _call contents hold only the function name (no
argument list): load_tx accepts it, update_tx raises IndexError on it. -/
def c5NoArgs : EchidnaTx := ⟨⟨"SolCall", "g", none⟩, 1, 2, 3, 4, 5, (6, 7)⟩

/-- What load_tx produces from c5NoArgs under the name tx0. -/
def c5NoArgsLoaded : AbstractTx :=
  ⟨⟨Value.var 160 "tx0_sender", Value.var 160 "tx0_sender", 2,
    Value.var 256 "tx0_value", ⟨"g", "()", "tx0", []⟩,
    Value.cst 256 5, Value.cst 256 4⟩,
  Value.var 256 "tx0_block_num_inc", Value.var 256 "tx0_block_timestamp_inc",
  ⟨[("tx0_block_num_inc", 7, 256), ("tx0_block_timestamp_inc", 6, 256),
    ("tx0_sender", 1, 160), ("tx0_value", 3, 256)]⟩⟩

/-- Concrete transaction for the C6 failing input: one uint256 argument
with value 42 and delay pair (7, 8). -/
def c6Tx : EchidnaTx :=
  ⟨⟨"SolCall", "f", some [AbiArg.abiUInt 256 42]⟩, 1, 2, 0, 5, 6, (7, 8)⟩

/-- A solver model carrying a new value 5 for the argument tx0_arg0 and a
new block-number increment 9. -/
def c6Model : VarContext :=
  ⟨[("tx0_arg0", 5, 256), ("tx0_block_num_inc", 9, 256)]⟩

end Echidna

theorem leadsList_iff_isPrefix (ns hs : List Char) :
    leadsList ns hs = true ↔ ns <+: hs := by
  induction ns generalizing hs with
  | nil => simp [leadsList]
  | cons a as ih =>
    cases hs with
    | nil => simp [leadsList]
    | cons b bs =>
      simp [leadsList, ih, List.cons_prefix_cons]

/-! ## Helper lemmas about the contracts map -/

namespace World

theorem getRunner_setRunner_self (cs : List (Nat × ContractRunner)) (a : Nat)
    (r r0 : ContractRunner) (h : getRunner cs a = some r0) :
    getRunner (setRunner cs a r) a = some r := by
  induction cs with
  | nil => simp [getRunner] at h
  | cons p t ih =>
    by_cases hp : p.1 = a
    · simp [getRunner, setRunner, hp]
    · simp [getRunner, setRunner, hp] at h ⊢
      exact ih h

theorem getRunner_setRunner_ne (cs : List (Nat × ContractRunner)) (a b : Nat)
    (r : ContractRunner) (h : b ≠ a) :
    getRunner (setRunner cs a r) b = getRunner cs b := by
  induction cs with
  | nil => simp [setRunner]
  | cons p t ih =>
    by_cases hp : p.1 = a
    · have hab : a ≠ b := fun he => h he.symm
      simp [getRunner, setRunner, hp, hab]
    · by_cases hb : p.1 = b
      · simp [getRunner, setRunner, hp, hb, h]
      · simp [getRunner, setRunner, hp, hb, ih]

theorem getRunner_append_none (cs : List (Nat × ContractRunner)) (a b : Nat)
    (r : ContractRunner) (h : getRunner cs b = none) :
    getRunner (cs ++ [(a, r)]) b = if a = b then some r else none := by
  induction cs with
  | nil => simp [getRunner]
  | cons p t ih =>
    by_cases hb : p.1 = b
    · simp [getRunner, hb] at h
    · simp [getRunner, hb] at h ⊢
      exact ih h

theorem getRunner_append_some (cs : List (Nat × ContractRunner)) (a b : Nat)
    (r r0 : ContractRunner) (h : getRunner cs b = some r0) :
    getRunner (cs ++ [(a, r)]) b = some r0 := by
  induction cs with
  | nil => simp [getRunner] at h
  | cons p t ih =>
    by_cases hp : p.1 = b
    · simp [getRunner, hp] at h ⊢; exact h
    · simp [getRunner, hp] at h ⊢; exact ih h

theorem getRunner_erase_self (cs : List (Nat × ContractRunner)) (a : Nat) :
    getRunner (eraseRunner cs a) a = none := by
  induction cs with
  | nil => simp [eraseRunner, getRunner]
  | cons p t ih =>
    by_cases hp : p.1 = a
    · simpa [eraseRunner, getRunner, hp] using ih
    · simpa [eraseRunner, getRunner, hp] using ih

theorem getRunner_erase_ne (cs : List (Nat × ContractRunner)) (a b : Nat)
    (h : b ≠ a) : getRunner (eraseRunner cs a) b = getRunner cs b := by
  induction cs with
  | nil => simp [eraseRunner]
  | cons p t ih =>
    by_cases hp : p.1 = a
    · have hpb : p.1 ≠ b := by
        rw [hp]; exact fun he => h he.symm
      simp only [eraseRunner, List.filter_cons] at ih ⊢
      simp [getRunner, hp, hpb, ih, Ne.symm h]
    · by_cases hb : p.1 = b
      · simp [eraseRunner, List.filter_cons, getRunner, hp, hb, h]
      · simp only [eraseRunner, List.filter_cons] at ih ⊢
        simp [getRunner, hp, hb, ih]

theorem noncesOf_setRunner_same_nonce (cs : List (Nat × ContractRunner))
    (a : Nat) (r : ContractRunner)
    (h : ∀ r0, getRunner cs a = some r0 → r.nonce = r0.nonce) :
    noncesOf (setRunner cs a r) = noncesOf cs := by
  induction cs with
  | nil => simp [setRunner]
  | cons p t ih =>
    by_cases hp : p.1 = a
    · have := h p.2 (by simp [getRunner, hp])
      simp [setRunner, noncesOf, hp, this]
    · simp [getRunner, hp] at h
      simpa [setRunner, noncesOf, hp] using ih h

theorem setTopEngine_nonce (r : ContractRunner) (e : EngineState) :
    (setTopEngine r e).nonce = r.nonce := by
  unfold setTopEngine
  split <;> rfl

theorem setTopEngine_address (r : ContractRunner) (e : EngineState) :
    (setTopEngine r e).address = r.address := by
  unfold setTopEngine
  split <;> rfl

end World

/-! ## Claim C3 -/

open World in
/-- C3: On return from a message call, _handle_CALL_after first pushes the
success flag (1 or 0) as a 256-bit constant onto the caller EVM stack,
then raises a WorldException exactly when the caller
outgoing_transaction.ret_len is strictly smaller than the recorded
result_from_last_call.return_data_size, and writes the return_data into
the caller memory at ret_offset only in the non-error case; when the
return buffer is too small no memory write is performed. -/
theorem C3_call_after_pushes_then_checks (caller : EngineState)
    (succeeded : Bool) (ot : OutTx) (r : TxResult)
    (hot : caller.outgoingTx = some ot)
    (hr : caller.resultFromLastCall = some r) :
    handleCALLAfter caller succeeded =
      (let pushed : EngineState :=
        { caller with stack := cst256 (if succeeded then 1 else 0) :: caller.stack }
      if ot.retLen < r.returnDataSize then
        (pushed, some WErr.bufferOverflow)
      else
        ({ pushed with
            memWrites := (ot.retOffset, r.returnData) :: caller.memWrites }, none)) := by
  simp only [handleCALLAfter, hot, hr]

open World in
/-- Witness for C3 at a concrete caller state: a 3-byte return against a
2-byte buffer raises the overflow error after the failure flag 0 was
pushed, with no memory write. -/
theorem C3_call_after_pushes_then_checks_witness :
    (⟨[7], [], some ⟨TxType.CALL, 1, 2, [], 64, 2⟩, some ⟨[9, 9, 9], 3⟩,
        ⟨[], 0⟩, []⟩ : EngineState).outgoingTx = some ⟨TxType.CALL, 1, 2, [], 64, 2⟩ ∧
    (⟨[7], [], some ⟨TxType.CALL, 1, 2, [], 64, 2⟩, some ⟨[9, 9, 9], 3⟩,
        ⟨[], 0⟩, []⟩ : EngineState).resultFromLastCall = some ⟨[9, 9, 9], 3⟩ ∧
    handleCALLAfter
      ⟨[7], [], some ⟨TxType.CALL, 1, 2, [], 64, 2⟩, some ⟨[9, 9, 9], 3⟩, ⟨[], 0⟩, []⟩
      false =
      (⟨[cst256 0, 7], [], some ⟨TxType.CALL, 1, 2, [], 64, 2⟩,
        some ⟨[9, 9, 9], 3⟩, ⟨[], 0⟩, []⟩, some WErr.bufferOverflow) := by
  refine ⟨rfl, rfl, ?_⟩
  have h := C3_call_after_pushes_then_checks
    ⟨[7], [], some ⟨TxType.CALL, 1, 2, [], 64, 2⟩, some ⟨[9, 9, 9], 3⟩, ⟨[], 0⟩, []⟩
    false ⟨TxType.CALL, 1, 2, [], 64, 2⟩ ⟨[9, 9, 9], 3⟩ rfl rfl
  simpa using h

/-! ## Claim C1 -/

open World in
/-- C1: when a contract created via a CREATE sub-call has its constructor
frame exit with a non-success status (REVERT), the orchestrator removes
the new contract runner from contracts and pushes the 256-bit constant 0
onto the caller engine EVM stack (the call stack still holds the caller
frame), while the deploying contract nonce stays incremented: the nonce
was bumped at issue time by _handle_CREATE, before the constructor ran,
so a deployer with nonce n when it issued the CREATE has nonce n + 1
after the failed constructor (n = 1 gives 2).  The iteration then stops
with the KeyError that the source raises when pop_runtime looks the
deleted contract up again. -/
theorem C1_create_failure_semantics (w : EVMWorld) (st : EngineStep)
    (topAddr : Nat) (rest : List Nat) (runner : ContractRunner)
    (rt : EVMRuntime) (rts : List EVMRuntime) (ot : OutTx) (ctx : AbstractTx)
    (hcs : w.callStack = topAddr :: rest)
    (hrun : getRunner w.contracts topAddr = some runner)
    (hrts : runner.runtimeStack = rt :: rts)
    (hout : rt.engine.outgoingTx = some ot)
    (htype : ot.txType = TxType.CREATE)
    (hcur : w.currentTx = some ctx)
    (hfresh : getRunner w.contracts
      (compute_new_contract_addr ot.sender runner.nonce) = none)
    (hstop : st.stop = StopReason.EXIT)
    (hrevert : st.exitStatus = TxRes.Revert) :
    (handleCREATE w).2 = none ∧
    ((getRunner (handleCREATE w).1.contracts topAddr).map ContractRunner.nonce
      = some (runner.nonce + 1)) ∧
    (loopIter st (handleCREATE w).1).2 = IterOut.errored
      (WErr.keyError (compute_new_contract_addr ot.sender runner.nonce)) ∧
    getRunner (loopIter st (handleCREATE w).1).1.contracts
      (compute_new_contract_addr ot.sender runner.nonce) = none ∧
    ((getRunner (loopIter st (handleCREATE w).1).1.contracts topAddr).map
      ContractRunner.nonce = some (runner.nonce + 1)) ∧
    (∃ r1 rt1 rts1,
      getRunner (loopIter st (handleCREATE w).1).1.contracts topAddr
        = some r1 ∧ r1.runtimeStack = rt1 :: rts1 ∧
      rt1.engine.stack = cst256 0 :: rt.engine.stack) := by
  have hne : compute_new_contract_addr ot.sender runner.nonce ≠ topAddr := by
    intro h
    rw [h, hrun] at hfresh
    exact Option.noConfusion hfresh
  have hne2 : topAddr ≠ compute_new_contract_addr ot.sender runner.nonce :=
    fun h => hne h.symm
  have hX1 : getRunner (setRunner w.contracts topAddr
      ⟨runner.address, runner.nonce + 1, rt :: rts, runner.isInit⟩)
      (compute_new_contract_addr ot.sender runner.nonce) = none := by
    rw [getRunner_setRunner_ne _ _ _ _ hne]
    exact hfresh
  have hHC : handleCREATE w =
      (⟨setRunner
          (setRunner w.contracts topAddr
              ⟨runner.address, runner.nonce + 1, rt :: rts, runner.isInit⟩
            ++ [(compute_new_contract_addr ot.sender runner.nonce,
                 ⟨compute_new_contract_addr ot.sender runner.nonce, 1, [], false⟩)])
          (compute_new_contract_addr ot.sender runner.nonce)
          ⟨compute_new_contract_addr ot.sender runner.nonce, 1,
            [EVMRuntime.fresh], false⟩,
        compute_new_contract_addr ot.sender runner.nonce :: topAddr :: rest,
        w.txQueue, some ctx, w.currentTxNum, w.blockNum, w.blockTimestamp⟩,
        none) := by
    unfold handleCREATE
    simp only [hcs, hrun, hrts, hout, htype, hX1, hcur]
  -- contract map facts
  have hAtop : getRunner (setRunner w.contracts topAddr
      ⟨runner.address, runner.nonce + 1, rt :: rts, runner.isInit⟩) topAddr =
      some ⟨runner.address, runner.nonce + 1, rt :: rts, runner.isInit⟩ :=
    getRunner_setRunner_self _ _ _ _ hrun
  have hApptop : getRunner (setRunner w.contracts topAddr
        ⟨runner.address, runner.nonce + 1, rt :: rts, runner.isInit⟩
      ++ [(compute_new_contract_addr ot.sender runner.nonce,
            ⟨compute_new_contract_addr ot.sender runner.nonce, 1, [], false⟩)])
      topAddr = some ⟨runner.address, runner.nonce + 1, rt :: rts, runner.isInit⟩ :=
    getRunner_append_some _ _ _ _ _ hAtop
  have hAppNA : getRunner (setRunner w.contracts topAddr
        ⟨runner.address, runner.nonce + 1, rt :: rts, runner.isInit⟩
      ++ [(compute_new_contract_addr ot.sender runner.nonce,
            ⟨compute_new_contract_addr ot.sender runner.nonce, 1, [], false⟩)])
      (compute_new_contract_addr ot.sender runner.nonce) =
      some ⟨compute_new_contract_addr ot.sender runner.nonce, 1, [], false⟩ := by
    rw [getRunner_append_none _ _ _ _ hX1]
    simp
  have hCtop : getRunner (setRunner
        (setRunner w.contracts topAddr
            ⟨runner.address, runner.nonce + 1, rt :: rts, runner.isInit⟩
          ++ [(compute_new_contract_addr ot.sender runner.nonce,
               ⟨compute_new_contract_addr ot.sender runner.nonce, 1, [], false⟩)])
        (compute_new_contract_addr ot.sender runner.nonce)
        ⟨compute_new_contract_addr ot.sender runner.nonce, 1,
          [EVMRuntime.fresh], false⟩) topAddr =
      some ⟨runner.address, runner.nonce + 1, rt :: rts, runner.isInit⟩ := by
    rw [getRunner_setRunner_ne _ _ _ _ hne2]
    exact hApptop
  have hCNA : getRunner (setRunner
        (setRunner w.contracts topAddr
            ⟨runner.address, runner.nonce + 1, rt :: rts, runner.isInit⟩
          ++ [(compute_new_contract_addr ot.sender runner.nonce,
               ⟨compute_new_contract_addr ot.sender runner.nonce, 1, [], false⟩)])
        (compute_new_contract_addr ot.sender runner.nonce)
        ⟨compute_new_contract_addr ot.sender runner.nonce, 1,
          [EVMRuntime.fresh], false⟩)
      (compute_new_contract_addr ot.sender runner.nonce) =
      some ⟨compute_new_contract_addr ot.sender runner.nonce, 1,
        [EVMRuntime.fresh], false⟩ :=
    getRunner_setRunner_self _ _ _ _ hAppNA
  -- layer 2: contract-map lookup facts after each mutation
  have hC2top : getRunner (setRunner (setRunner (setRunner w.contracts topAddr ⟨runner.address, runner.nonce + 1, rt :: rts, runner.isInit⟩
      ++ [(compute_new_contract_addr ot.sender runner.nonce, ⟨compute_new_contract_addr ot.sender runner.nonce, 1, [], false⟩)]) (compute_new_contract_addr ot.sender runner.nonce) ⟨compute_new_contract_addr ot.sender runner.nonce, 1, [EVMRuntime.fresh], false⟩) (compute_new_contract_addr ot.sender runner.nonce) ⟨compute_new_contract_addr ot.sender runner.nonce, 1, [⟨st.newEngine, EngineState.fresh⟩], false⟩) topAddr = some ⟨runner.address, runner.nonce + 1, rt :: rts, runner.isInit⟩ := by
    rw [getRunner_setRunner_ne _ _ _ _ hne2]
    exact hCtop
  have hC2NA : getRunner (setRunner (setRunner (setRunner w.contracts topAddr ⟨runner.address, runner.nonce + 1, rt :: rts, runner.isInit⟩
      ++ [(compute_new_contract_addr ot.sender runner.nonce, ⟨compute_new_contract_addr ot.sender runner.nonce, 1, [], false⟩)]) (compute_new_contract_addr ot.sender runner.nonce) ⟨compute_new_contract_addr ot.sender runner.nonce, 1, [EVMRuntime.fresh], false⟩) (compute_new_contract_addr ot.sender runner.nonce) ⟨compute_new_contract_addr ot.sender runner.nonce, 1, [⟨st.newEngine, EngineState.fresh⟩], false⟩) (compute_new_contract_addr ot.sender runner.nonce) = some ⟨compute_new_contract_addr ot.sender runner.nonce, 1, [⟨st.newEngine, EngineState.fresh⟩], false⟩ :=
    getRunner_setRunner_self _ _ _ _ hCNA
  have hC3top : getRunner (setRunner (setRunner (setRunner (setRunner w.contracts topAddr ⟨runner.address, runner.nonce + 1, rt :: rts, runner.isInit⟩
      ++ [(compute_new_contract_addr ot.sender runner.nonce, ⟨compute_new_contract_addr ot.sender runner.nonce, 1, [], false⟩)]) (compute_new_contract_addr ot.sender runner.nonce) ⟨compute_new_contract_addr ot.sender runner.nonce, 1, [EVMRuntime.fresh], false⟩) (compute_new_contract_addr ot.sender runner.nonce) ⟨compute_new_contract_addr ot.sender runner.nonce, 1, [⟨st.newEngine, EngineState.fresh⟩], false⟩) topAddr ⟨runner.address, runner.nonce + 1, ⟨⟨rt.engine.stack, rt.engine.memWrites, rt.engine.outgoingTx, some st.newEngine.txResult, rt.engine.txResult, rt.engine.code⟩, rt.initState⟩ :: rts, runner.isInit⟩) topAddr = some ⟨runner.address, runner.nonce + 1, ⟨⟨rt.engine.stack, rt.engine.memWrites, rt.engine.outgoingTx, some st.newEngine.txResult, rt.engine.txResult, rt.engine.code⟩, rt.initState⟩ :: rts, runner.isInit⟩ :=
    getRunner_setRunner_self _ _ _ _ hC2top
  have hC3NA : getRunner (setRunner (setRunner (setRunner (setRunner w.contracts topAddr ⟨runner.address, runner.nonce + 1, rt :: rts, runner.isInit⟩
      ++ [(compute_new_contract_addr ot.sender runner.nonce, ⟨compute_new_contract_addr ot.sender runner.nonce, 1, [], false⟩)]) (compute_new_contract_addr ot.sender runner.nonce) ⟨compute_new_contract_addr ot.sender runner.nonce, 1, [EVMRuntime.fresh], false⟩) (compute_new_contract_addr ot.sender runner.nonce) ⟨compute_new_contract_addr ot.sender runner.nonce, 1, [⟨st.newEngine, EngineState.fresh⟩], false⟩) topAddr ⟨runner.address, runner.nonce + 1, ⟨⟨rt.engine.stack, rt.engine.memWrites, rt.engine.outgoingTx, some st.newEngine.txResult, rt.engine.txResult, rt.engine.code⟩, rt.initState⟩ :: rts, runner.isInit⟩) (compute_new_contract_addr ot.sender runner.nonce) = some ⟨compute_new_contract_addr ot.sender runner.nonce, 1, [⟨st.newEngine, EngineState.fresh⟩], false⟩ := by
    rw [getRunner_setRunner_ne _ _ _ _ hne]
    exact hC2NA
  have hC4NA : getRunner (setRunner (setRunner (setRunner (setRunner (setRunner w.contracts topAddr ⟨runner.address, runner.nonce + 1, rt :: rts, runner.isInit⟩
      ++ [(compute_new_contract_addr ot.sender runner.nonce, ⟨compute_new_contract_addr ot.sender runner.nonce, 1, [], false⟩)]) (compute_new_contract_addr ot.sender runner.nonce) ⟨compute_new_contract_addr ot.sender runner.nonce, 1, [EVMRuntime.fresh], false⟩) (compute_new_contract_addr ot.sender runner.nonce) ⟨compute_new_contract_addr ot.sender runner.nonce, 1, [⟨st.newEngine, EngineState.fresh⟩], false⟩) topAddr ⟨runner.address, runner.nonce + 1, ⟨⟨rt.engine.stack, rt.engine.memWrites, rt.engine.outgoingTx, some st.newEngine.txResult, rt.engine.txResult, rt.engine.code⟩, rt.initState⟩ :: rts, runner.isInit⟩) (compute_new_contract_addr ot.sender runner.nonce) ⟨compute_new_contract_addr ot.sender runner.nonce, 1, [⟨EngineState.fresh, EngineState.fresh⟩], false⟩) (compute_new_contract_addr ot.sender runner.nonce) = some ⟨compute_new_contract_addr ot.sender runner.nonce, 1, [⟨EngineState.fresh, EngineState.fresh⟩], false⟩ :=
    getRunner_setRunner_self _ _ _ _ hC3NA
  have hC4top : getRunner (setRunner (setRunner (setRunner (setRunner (setRunner w.contracts topAddr ⟨runner.address, runner.nonce + 1, rt :: rts, runner.isInit⟩
      ++ [(compute_new_contract_addr ot.sender runner.nonce, ⟨compute_new_contract_addr ot.sender runner.nonce, 1, [], false⟩)]) (compute_new_contract_addr ot.sender runner.nonce) ⟨compute_new_contract_addr ot.sender runner.nonce, 1, [EVMRuntime.fresh], false⟩) (compute_new_contract_addr ot.sender runner.nonce) ⟨compute_new_contract_addr ot.sender runner.nonce, 1, [⟨st.newEngine, EngineState.fresh⟩], false⟩) topAddr ⟨runner.address, runner.nonce + 1, ⟨⟨rt.engine.stack, rt.engine.memWrites, rt.engine.outgoingTx, some st.newEngine.txResult, rt.engine.txResult, rt.engine.code⟩, rt.initState⟩ :: rts, runner.isInit⟩) (compute_new_contract_addr ot.sender runner.nonce) ⟨compute_new_contract_addr ot.sender runner.nonce, 1, [⟨EngineState.fresh, EngineState.fresh⟩], false⟩) topAddr = some ⟨runner.address, runner.nonce + 1, ⟨⟨rt.engine.stack, rt.engine.memWrites, rt.engine.outgoingTx, some st.newEngine.txResult, rt.engine.txResult, rt.engine.code⟩, rt.initState⟩ :: rts, runner.isInit⟩ := by
    rw [getRunner_setRunner_ne _ _ _ _ hne2]
    exact hC3top
  have hEtop : getRunner (eraseRunner (setRunner (setRunner (setRunner (setRunner (setRunner w.contracts topAddr ⟨runner.address, runner.nonce + 1, rt :: rts, runner.isInit⟩
      ++ [(compute_new_contract_addr ot.sender runner.nonce, ⟨compute_new_contract_addr ot.sender runner.nonce, 1, [], false⟩)]) (compute_new_contract_addr ot.sender runner.nonce) ⟨compute_new_contract_addr ot.sender runner.nonce, 1, [EVMRuntime.fresh], false⟩) (compute_new_contract_addr ot.sender runner.nonce) ⟨compute_new_contract_addr ot.sender runner.nonce, 1, [⟨st.newEngine, EngineState.fresh⟩], false⟩) topAddr ⟨runner.address, runner.nonce + 1, ⟨⟨rt.engine.stack, rt.engine.memWrites, rt.engine.outgoingTx, some st.newEngine.txResult, rt.engine.txResult, rt.engine.code⟩, rt.initState⟩ :: rts, runner.isInit⟩) (compute_new_contract_addr ot.sender runner.nonce) ⟨compute_new_contract_addr ot.sender runner.nonce, 1, [⟨EngineState.fresh, EngineState.fresh⟩], false⟩) (compute_new_contract_addr ot.sender runner.nonce)) topAddr = some ⟨runner.address, runner.nonce + 1, ⟨⟨rt.engine.stack, rt.engine.memWrites, rt.engine.outgoingTx, some st.newEngine.txResult, rt.engine.txResult, rt.engine.code⟩, rt.initState⟩ :: rts, runner.isInit⟩ := by
    rw [getRunner_erase_ne _ _ _ hne2]
    exact hC4top
  have hENA : getRunner (eraseRunner (setRunner (setRunner (setRunner (setRunner (setRunner w.contracts topAddr ⟨runner.address, runner.nonce + 1, rt :: rts, runner.isInit⟩
      ++ [(compute_new_contract_addr ot.sender runner.nonce, ⟨compute_new_contract_addr ot.sender runner.nonce, 1, [], false⟩)]) (compute_new_contract_addr ot.sender runner.nonce) ⟨compute_new_contract_addr ot.sender runner.nonce, 1, [EVMRuntime.fresh], false⟩) (compute_new_contract_addr ot.sender runner.nonce) ⟨compute_new_contract_addr ot.sender runner.nonce, 1, [⟨st.newEngine, EngineState.fresh⟩], false⟩) topAddr ⟨runner.address, runner.nonce + 1, ⟨⟨rt.engine.stack, rt.engine.memWrites, rt.engine.outgoingTx, some st.newEngine.txResult, rt.engine.txResult, rt.engine.code⟩, rt.initState⟩ :: rts, runner.isInit⟩) (compute_new_contract_addr ot.sender runner.nonce) ⟨compute_new_contract_addr ot.sender runner.nonce, 1, [⟨EngineState.fresh, EngineState.fresh⟩], false⟩) (compute_new_contract_addr ot.sender runner.nonce)) (compute_new_contract_addr ot.sender runner.nonce) = none :=
    getRunner_erase_self _ _
  have hC5top : getRunner (setRunner (eraseRunner (setRunner (setRunner (setRunner (setRunner (setRunner w.contracts topAddr ⟨runner.address, runner.nonce + 1, rt :: rts, runner.isInit⟩
      ++ [(compute_new_contract_addr ot.sender runner.nonce, ⟨compute_new_contract_addr ot.sender runner.nonce, 1, [], false⟩)]) (compute_new_contract_addr ot.sender runner.nonce) ⟨compute_new_contract_addr ot.sender runner.nonce, 1, [EVMRuntime.fresh], false⟩) (compute_new_contract_addr ot.sender runner.nonce) ⟨compute_new_contract_addr ot.sender runner.nonce, 1, [⟨st.newEngine, EngineState.fresh⟩], false⟩) topAddr ⟨runner.address, runner.nonce + 1, ⟨⟨rt.engine.stack, rt.engine.memWrites, rt.engine.outgoingTx, some st.newEngine.txResult, rt.engine.txResult, rt.engine.code⟩, rt.initState⟩ :: rts, runner.isInit⟩) (compute_new_contract_addr ot.sender runner.nonce) ⟨compute_new_contract_addr ot.sender runner.nonce, 1, [⟨EngineState.fresh, EngineState.fresh⟩], false⟩) (compute_new_contract_addr ot.sender runner.nonce)) topAddr ⟨runner.address, runner.nonce + 1, ⟨⟨cst256 0 :: rt.engine.stack, rt.engine.memWrites, rt.engine.outgoingTx, some st.newEngine.txResult, rt.engine.txResult, rt.engine.code⟩, rt.initState⟩ :: rts, runner.isInit⟩) topAddr = some ⟨runner.address, runner.nonce + 1, ⟨⟨cst256 0 :: rt.engine.stack, rt.engine.memWrites, rt.engine.outgoingTx, some st.newEngine.txResult, rt.engine.txResult, rt.engine.code⟩, rt.initState⟩ :: rts, runner.isInit⟩ :=
    getRunner_setRunner_self _ _ _ _ hEtop
  have hC5NA : getRunner (setRunner (eraseRunner (setRunner (setRunner (setRunner (setRunner (setRunner w.contracts topAddr ⟨runner.address, runner.nonce + 1, rt :: rts, runner.isInit⟩
      ++ [(compute_new_contract_addr ot.sender runner.nonce, ⟨compute_new_contract_addr ot.sender runner.nonce, 1, [], false⟩)]) (compute_new_contract_addr ot.sender runner.nonce) ⟨compute_new_contract_addr ot.sender runner.nonce, 1, [EVMRuntime.fresh], false⟩) (compute_new_contract_addr ot.sender runner.nonce) ⟨compute_new_contract_addr ot.sender runner.nonce, 1, [⟨st.newEngine, EngineState.fresh⟩], false⟩) topAddr ⟨runner.address, runner.nonce + 1, ⟨⟨rt.engine.stack, rt.engine.memWrites, rt.engine.outgoingTx, some st.newEngine.txResult, rt.engine.txResult, rt.engine.code⟩, rt.initState⟩ :: rts, runner.isInit⟩) (compute_new_contract_addr ot.sender runner.nonce) ⟨compute_new_contract_addr ot.sender runner.nonce, 1, [⟨EngineState.fresh, EngineState.fresh⟩], false⟩) (compute_new_contract_addr ot.sender runner.nonce)) topAddr ⟨runner.address, runner.nonce + 1, ⟨⟨cst256 0 :: rt.engine.stack, rt.engine.memWrites, rt.engine.outgoingTx, some st.newEngine.txResult, rt.engine.txResult, rt.engine.code⟩, rt.initState⟩ :: rts, runner.isInit⟩) (compute_new_contract_addr ot.sender runner.nonce) = none := by
    rw [getRunner_setRunner_ne _ _ _ _ hne]
    exact hENA
  -- layer 3: the loop iteration on the world left by handleCREATE
  have hsucc : (decide (TxRes.Revert = TxRes.Stop) ||
      decide (TxRes.Revert = TxRes.Return)) = false := rfl
  have hLI : loopIter st
      ⟨setRunner (setRunner w.contracts topAddr ⟨runner.address, runner.nonce + 1, rt :: rts, runner.isInit⟩
      ++ [(compute_new_contract_addr ot.sender runner.nonce, ⟨compute_new_contract_addr ot.sender runner.nonce, 1, [], false⟩)]) (compute_new_contract_addr ot.sender runner.nonce) ⟨compute_new_contract_addr ot.sender runner.nonce, 1, [EVMRuntime.fresh], false⟩,
      (compute_new_contract_addr ot.sender runner.nonce) :: topAddr :: rest,
      w.txQueue, some ctx, w.currentTxNum, w.blockNum, w.blockTimestamp⟩ = exitStep st
      ⟨setRunner (setRunner (setRunner w.contracts topAddr ⟨runner.address, runner.nonce + 1, rt :: rts, runner.isInit⟩
      ++ [(compute_new_contract_addr ot.sender runner.nonce, ⟨compute_new_contract_addr ot.sender runner.nonce, 1, [], false⟩)]) (compute_new_contract_addr ot.sender runner.nonce) ⟨compute_new_contract_addr ot.sender runner.nonce, 1, [EVMRuntime.fresh], false⟩) (compute_new_contract_addr ot.sender runner.nonce) ⟨compute_new_contract_addr ot.sender runner.nonce, 1, [⟨st.newEngine, EngineState.fresh⟩], false⟩,
      (compute_new_contract_addr ot.sender runner.nonce) :: topAddr :: rest,
      w.txQueue, some ctx, w.currentTxNum, w.blockNum, w.blockTimestamp⟩ := by
    unfold loopIter phaseA phaseB
    have hfri : EVMRuntime.fresh.initState = EngineState.fresh := rfl
    simp [hCNA, hstop, setTopEngine, hfri]
  have hES1 : exitSetCallerResult st
      ⟨setRunner (setRunner (setRunner w.contracts topAddr ⟨runner.address, runner.nonce + 1, rt :: rts, runner.isInit⟩
      ++ [(compute_new_contract_addr ot.sender runner.nonce, ⟨compute_new_contract_addr ot.sender runner.nonce, 1, [], false⟩)]) (compute_new_contract_addr ot.sender runner.nonce) ⟨compute_new_contract_addr ot.sender runner.nonce, 1, [EVMRuntime.fresh], false⟩) (compute_new_contract_addr ot.sender runner.nonce) ⟨compute_new_contract_addr ot.sender runner.nonce, 1, [⟨st.newEngine, EngineState.fresh⟩], false⟩,
      (compute_new_contract_addr ot.sender runner.nonce) :: topAddr :: rest,
      w.txQueue, some ctx, w.currentTxNum, w.blockNum, w.blockTimestamp⟩ (topAddr :: rest) =
      (⟨setRunner (setRunner (setRunner (setRunner w.contracts topAddr ⟨runner.address, runner.nonce + 1, rt :: rts, runner.isInit⟩
      ++ [(compute_new_contract_addr ot.sender runner.nonce, ⟨compute_new_contract_addr ot.sender runner.nonce, 1, [], false⟩)]) (compute_new_contract_addr ot.sender runner.nonce) ⟨compute_new_contract_addr ot.sender runner.nonce, 1, [EVMRuntime.fresh], false⟩) (compute_new_contract_addr ot.sender runner.nonce) ⟨compute_new_contract_addr ot.sender runner.nonce, 1, [⟨st.newEngine, EngineState.fresh⟩], false⟩) topAddr ⟨runner.address, runner.nonce + 1, ⟨⟨rt.engine.stack, rt.engine.memWrites, rt.engine.outgoingTx, some st.newEngine.txResult, rt.engine.txResult, rt.engine.code⟩, rt.initState⟩ :: rts, runner.isInit⟩,
      (compute_new_contract_addr ot.sender runner.nonce) :: topAddr :: rest,
      w.txQueue, some ctx, w.currentTxNum, w.blockNum, w.blockTimestamp⟩, true, none) := by
    unfold exitSetCallerResult
    simp only [hC2top]
  have hRev : exitRevert
      ⟨setRunner (setRunner (setRunner (setRunner w.contracts topAddr ⟨runner.address, runner.nonce + 1, rt :: rts, runner.isInit⟩
      ++ [(compute_new_contract_addr ot.sender runner.nonce, ⟨compute_new_contract_addr ot.sender runner.nonce, 1, [], false⟩)]) (compute_new_contract_addr ot.sender runner.nonce) ⟨compute_new_contract_addr ot.sender runner.nonce, 1, [EVMRuntime.fresh], false⟩) (compute_new_contract_addr ot.sender runner.nonce) ⟨compute_new_contract_addr ot.sender runner.nonce, 1, [⟨st.newEngine, EngineState.fresh⟩], false⟩) topAddr ⟨runner.address, runner.nonce + 1, ⟨⟨rt.engine.stack, rt.engine.memWrites, rt.engine.outgoingTx, some st.newEngine.txResult, rt.engine.txResult, rt.engine.code⟩, rt.initState⟩ :: rts, runner.isInit⟩,
      (compute_new_contract_addr ot.sender runner.nonce) :: topAddr :: rest,
      w.txQueue, some ctx, w.currentTxNum, w.blockNum, w.blockTimestamp⟩ (compute_new_contract_addr ot.sender runner.nonce) =
      ⟨setRunner (setRunner (setRunner (setRunner (setRunner w.contracts topAddr ⟨runner.address, runner.nonce + 1, rt :: rts, runner.isInit⟩
      ++ [(compute_new_contract_addr ot.sender runner.nonce, ⟨compute_new_contract_addr ot.sender runner.nonce, 1, [], false⟩)]) (compute_new_contract_addr ot.sender runner.nonce) ⟨compute_new_contract_addr ot.sender runner.nonce, 1, [EVMRuntime.fresh], false⟩) (compute_new_contract_addr ot.sender runner.nonce) ⟨compute_new_contract_addr ot.sender runner.nonce, 1, [⟨st.newEngine, EngineState.fresh⟩], false⟩) topAddr ⟨runner.address, runner.nonce + 1, ⟨⟨rt.engine.stack, rt.engine.memWrites, rt.engine.outgoingTx, some st.newEngine.txResult, rt.engine.txResult, rt.engine.code⟩, rt.initState⟩ :: rts, runner.isInit⟩) (compute_new_contract_addr ot.sender runner.nonce) ⟨compute_new_contract_addr ot.sender runner.nonce, 1, [⟨EngineState.fresh, EngineState.fresh⟩], false⟩,
      (compute_new_contract_addr ot.sender runner.nonce) :: topAddr :: rest,
      w.txQueue, some ctx, w.currentTxNum, w.blockNum, w.blockTimestamp⟩ := by
    unfold exitRevert
    simp only [hC3NA]
  have hHook : exitCreateHook false
      ⟨setRunner (setRunner (setRunner (setRunner (setRunner w.contracts topAddr ⟨runner.address, runner.nonce + 1, rt :: rts, runner.isInit⟩
      ++ [(compute_new_contract_addr ot.sender runner.nonce, ⟨compute_new_contract_addr ot.sender runner.nonce, 1, [], false⟩)]) (compute_new_contract_addr ot.sender runner.nonce) ⟨compute_new_contract_addr ot.sender runner.nonce, 1, [EVMRuntime.fresh], false⟩) (compute_new_contract_addr ot.sender runner.nonce) ⟨compute_new_contract_addr ot.sender runner.nonce, 1, [⟨st.newEngine, EngineState.fresh⟩], false⟩) topAddr ⟨runner.address, runner.nonce + 1, ⟨⟨rt.engine.stack, rt.engine.memWrites, rt.engine.outgoingTx, some st.newEngine.txResult, rt.engine.txResult, rt.engine.code⟩, rt.initState⟩ :: rts, runner.isInit⟩) (compute_new_contract_addr ot.sender runner.nonce) ⟨compute_new_contract_addr ot.sender runner.nonce, 1, [⟨EngineState.fresh, EngineState.fresh⟩], false⟩,
      (compute_new_contract_addr ot.sender runner.nonce) :: topAddr :: rest,
      w.txQueue, some ctx, w.currentTxNum, w.blockNum, w.blockTimestamp⟩ (compute_new_contract_addr ot.sender runner.nonce) =
      (⟨setRunner (eraseRunner (setRunner (setRunner (setRunner (setRunner (setRunner w.contracts topAddr ⟨runner.address, runner.nonce + 1, rt :: rts, runner.isInit⟩
      ++ [(compute_new_contract_addr ot.sender runner.nonce, ⟨compute_new_contract_addr ot.sender runner.nonce, 1, [], false⟩)]) (compute_new_contract_addr ot.sender runner.nonce) ⟨compute_new_contract_addr ot.sender runner.nonce, 1, [EVMRuntime.fresh], false⟩) (compute_new_contract_addr ot.sender runner.nonce) ⟨compute_new_contract_addr ot.sender runner.nonce, 1, [⟨st.newEngine, EngineState.fresh⟩], false⟩) topAddr ⟨runner.address, runner.nonce + 1, ⟨⟨rt.engine.stack, rt.engine.memWrites, rt.engine.outgoingTx, some st.newEngine.txResult, rt.engine.txResult, rt.engine.code⟩, rt.initState⟩ :: rts, runner.isInit⟩) (compute_new_contract_addr ot.sender runner.nonce) ⟨compute_new_contract_addr ot.sender runner.nonce, 1, [⟨EngineState.fresh, EngineState.fresh⟩], false⟩) (compute_new_contract_addr ot.sender runner.nonce)) topAddr ⟨runner.address, runner.nonce + 1, ⟨⟨cst256 0 :: rt.engine.stack, rt.engine.memWrites, rt.engine.outgoingTx, some st.newEngine.txResult, rt.engine.txResult, rt.engine.code⟩, rt.initState⟩ :: rts, runner.isInit⟩,
      (compute_new_contract_addr ot.sender runner.nonce) :: topAddr :: rest,
      w.txQueue, some ctx, w.currentTxNum, w.blockNum, w.blockTimestamp⟩, none) := by
    unfold exitCreateHook handleCREATEAfter
    simp only [hC4NA, hEtop, setTopEngine, Bool.false_eq_true, if_false]
  have hPop : exitPopRuntime
      ⟨setRunner (eraseRunner (setRunner (setRunner (setRunner (setRunner (setRunner w.contracts topAddr ⟨runner.address, runner.nonce + 1, rt :: rts, runner.isInit⟩
      ++ [(compute_new_contract_addr ot.sender runner.nonce, ⟨compute_new_contract_addr ot.sender runner.nonce, 1, [], false⟩)]) (compute_new_contract_addr ot.sender runner.nonce) ⟨compute_new_contract_addr ot.sender runner.nonce, 1, [EVMRuntime.fresh], false⟩) (compute_new_contract_addr ot.sender runner.nonce) ⟨compute_new_contract_addr ot.sender runner.nonce, 1, [⟨st.newEngine, EngineState.fresh⟩], false⟩) topAddr ⟨runner.address, runner.nonce + 1, ⟨⟨rt.engine.stack, rt.engine.memWrites, rt.engine.outgoingTx, some st.newEngine.txResult, rt.engine.txResult, rt.engine.code⟩, rt.initState⟩ :: rts, runner.isInit⟩) (compute_new_contract_addr ot.sender runner.nonce) ⟨compute_new_contract_addr ot.sender runner.nonce, 1, [⟨EngineState.fresh, EngineState.fresh⟩], false⟩) (compute_new_contract_addr ot.sender runner.nonce)) topAddr ⟨runner.address, runner.nonce + 1, ⟨⟨cst256 0 :: rt.engine.stack, rt.engine.memWrites, rt.engine.outgoingTx, some st.newEngine.txResult, rt.engine.txResult, rt.engine.code⟩, rt.initState⟩ :: rts, runner.isInit⟩,
      (compute_new_contract_addr ot.sender runner.nonce) :: topAddr :: rest,
      w.txQueue, some ctx, w.currentTxNum, w.blockNum, w.blockTimestamp⟩ (compute_new_contract_addr ot.sender runner.nonce) =
      (⟨setRunner (eraseRunner (setRunner (setRunner (setRunner (setRunner (setRunner w.contracts topAddr ⟨runner.address, runner.nonce + 1, rt :: rts, runner.isInit⟩
      ++ [(compute_new_contract_addr ot.sender runner.nonce, ⟨compute_new_contract_addr ot.sender runner.nonce, 1, [], false⟩)]) (compute_new_contract_addr ot.sender runner.nonce) ⟨compute_new_contract_addr ot.sender runner.nonce, 1, [EVMRuntime.fresh], false⟩) (compute_new_contract_addr ot.sender runner.nonce) ⟨compute_new_contract_addr ot.sender runner.nonce, 1, [⟨st.newEngine, EngineState.fresh⟩], false⟩) topAddr ⟨runner.address, runner.nonce + 1, ⟨⟨rt.engine.stack, rt.engine.memWrites, rt.engine.outgoingTx, some st.newEngine.txResult, rt.engine.txResult, rt.engine.code⟩, rt.initState⟩ :: rts, runner.isInit⟩) (compute_new_contract_addr ot.sender runner.nonce) ⟨compute_new_contract_addr ot.sender runner.nonce, 1, [⟨EngineState.fresh, EngineState.fresh⟩], false⟩) (compute_new_contract_addr ot.sender runner.nonce)) topAddr ⟨runner.address, runner.nonce + 1, ⟨⟨cst256 0 :: rt.engine.stack, rt.engine.memWrites, rt.engine.outgoingTx, some st.newEngine.txResult, rt.engine.txResult, rt.engine.code⟩, rt.initState⟩ :: rts, runner.isInit⟩,
      (compute_new_contract_addr ot.sender runner.nonce) :: topAddr :: rest,
      w.txQueue, some ctx, w.currentTxNum, w.blockNum, w.blockTimestamp⟩, some (WErr.keyError (compute_new_contract_addr ot.sender runner.nonce))) := by
    unfold exitPopRuntime
    simp only [hC5NA]
  have hExit : exitStep st
      ⟨setRunner (setRunner (setRunner w.contracts topAddr ⟨runner.address, runner.nonce + 1, rt :: rts, runner.isInit⟩
      ++ [(compute_new_contract_addr ot.sender runner.nonce, ⟨compute_new_contract_addr ot.sender runner.nonce, 1, [], false⟩)]) (compute_new_contract_addr ot.sender runner.nonce) ⟨compute_new_contract_addr ot.sender runner.nonce, 1, [EVMRuntime.fresh], false⟩) (compute_new_contract_addr ot.sender runner.nonce) ⟨compute_new_contract_addr ot.sender runner.nonce, 1, [⟨st.newEngine, EngineState.fresh⟩], false⟩,
      (compute_new_contract_addr ot.sender runner.nonce) :: topAddr :: rest,
      w.txQueue, some ctx, w.currentTxNum, w.blockNum, w.blockTimestamp⟩ =
      (⟨setRunner (eraseRunner (setRunner (setRunner (setRunner (setRunner (setRunner w.contracts topAddr ⟨runner.address, runner.nonce + 1, rt :: rts, runner.isInit⟩
      ++ [(compute_new_contract_addr ot.sender runner.nonce, ⟨compute_new_contract_addr ot.sender runner.nonce, 1, [], false⟩)]) (compute_new_contract_addr ot.sender runner.nonce) ⟨compute_new_contract_addr ot.sender runner.nonce, 1, [EVMRuntime.fresh], false⟩) (compute_new_contract_addr ot.sender runner.nonce) ⟨compute_new_contract_addr ot.sender runner.nonce, 1, [⟨st.newEngine, EngineState.fresh⟩], false⟩) topAddr ⟨runner.address, runner.nonce + 1, ⟨⟨rt.engine.stack, rt.engine.memWrites, rt.engine.outgoingTx, some st.newEngine.txResult, rt.engine.txResult, rt.engine.code⟩, rt.initState⟩ :: rts, runner.isInit⟩) (compute_new_contract_addr ot.sender runner.nonce) ⟨compute_new_contract_addr ot.sender runner.nonce, 1, [⟨EngineState.fresh, EngineState.fresh⟩], false⟩) (compute_new_contract_addr ot.sender runner.nonce)) topAddr ⟨runner.address, runner.nonce + 1, ⟨⟨cst256 0 :: rt.engine.stack, rt.engine.memWrites, rt.engine.outgoingTx, some st.newEngine.txResult, rt.engine.txResult, rt.engine.code⟩, rt.initState⟩ :: rts, runner.isInit⟩,
      (compute_new_contract_addr ot.sender runner.nonce) :: topAddr :: rest,
      w.txQueue, some ctx, w.currentTxNum, w.blockNum, w.blockTimestamp⟩, IterOut.errored (WErr.keyError (compute_new_contract_addr ot.sender runner.nonce))) := by
    unfold exitStep
    simp only [hES1, hrevert, hsucc, hRev, hHook, hPop, if_true]
  refine ⟨by rw [hHC], ?_, ?_, ?_, ?_, ?_⟩
  · rw [hHC]
    dsimp only
    rw [hCtop]
    rfl
  · rw [hHC]
    dsimp only
    rw [hLI, hExit]
  · rw [hHC]
    dsimp only
    rw [hLI, hExit]
    dsimp only
    exact hC5NA
  · rw [hHC]
    dsimp only
    rw [hLI, hExit]
    dsimp only
    rw [hC5top]
    rfl
  · rw [hHC]
    dsimp only
    rw [hLI, hExit]
    dsimp only
    exact ⟨⟨runner.address, runner.nonce + 1, ⟨⟨cst256 0 :: rt.engine.stack, rt.engine.memWrites, rt.engine.outgoingTx, some st.newEngine.txResult, rt.engine.txResult, rt.engine.code⟩, rt.initState⟩ :: rts, runner.isInit⟩, ⟨⟨cst256 0 :: rt.engine.stack, rt.engine.memWrites, rt.engine.outgoingTx, some st.newEngine.txResult, rt.engine.txResult, rt.engine.code⟩, rt.initState⟩, rts, hC5top, rfl, rfl⟩

open World in
/-- Witness for C1: the deployer at address 10 with nonce 1 issues a
CREATE; after the constructor reverts, the created runner is gone, the
deployer nonce is 2 and the deployer stack top is the 256-bit zero. -/
theorem C1_create_failure_semantics_witness :
    c1World.callStack = 10 :: [] ∧
    getRunner c1World.contracts 10 = some c1Runner ∧
    c1Runner.runtimeStack = c1Rt :: [] ∧
    c1Rt.engine.outgoingTx = some c1Out ∧
    c1Out.txType = TxType.CREATE ∧
    getRunner c1World.contracts
      (compute_new_contract_addr c1Out.sender c1Runner.nonce) = none ∧
    (handleCREATE c1World).2 = none ∧
    ((getRunner (handleCREATE c1World).1.contracts 10).map ContractRunner.nonce
      = some 2) ∧
    (loopIter c1Step (handleCREATE c1World).1).2 = IterOut.errored
      (WErr.keyError (compute_new_contract_addr 10 1)) ∧
    getRunner (loopIter c1Step (handleCREATE c1World).1).1.contracts
      (compute_new_contract_addr 10 1) = none ∧
    ((getRunner (loopIter c1Step (handleCREATE c1World).1).1.contracts 10).map
      ContractRunner.nonce = some 2) ∧
    (∃ r1 rt1 rts1,
      getRunner (loopIter c1Step (handleCREATE c1World).1).1.contracts 10
        = some r1 ∧ r1.runtimeStack = rt1 :: rts1 ∧
      rt1.engine.stack = cst256 0 :: []) := by
  have h := C1_create_failure_semantics c1World c1Step 10 [] c1Runner c1Rt []
    c1Out ⟨10, 0, 0⟩ rfl rfl rfl rfl rfl rfl rfl rfl rfl
  refine ⟨rfl, rfl, rfl, rfl, rfl, rfl, h.1, ?_, ?_, ?_, ?_, ?_⟩
  · simpa [c1Runner] using h.2.1
  · simpa [c1Out, c1Runner] using h.2.2.1
  · simpa [c1Out, c1Runner] using h.2.2.2.1
  · simpa [c1Runner] using h.2.2.2.2.1
  · simpa [c1Rt] using h.2.2.2.2.2

/-! ## Claim C2 -/

namespace World

/-- Helper: setTopEngine keeps the runtime stack nonempty layout. -/
theorem setTopEngine_runtimeStack (r : ContractRunner) (e : EngineState)
    (rt : EVMRuntime) (rts : List EVMRuntime) (h : r.runtimeStack = rt :: rts) :
    (setTopEngine r e).runtimeStack = { rt with engine := e } :: rts := by
  simp [setTopEngine, h]

end World

open World in
/-- C2: For every outgoing sub-transaction whose type is CREATE2, CALLCODE
or DELEGATECALL, the run loop raises a distinguished WorldException
(transaction type not implemented for CREATE2, which is dispatched into
the CREATE handler, and unsupported transaction type for CALLCODE and
DELEGATECALL) instead of silently proceeding, and in all three cases no
contract is deployed or removed and no nonce changes: the
address-to-nonce view of the contracts map is untouched. -/
theorem C2_unsupported_subcall_raises (st : EngineStep) (w : EVMWorld)
    (topAddr : Nat) (rest : List Nat) (runner : ContractRunner)
    (rt : EVMRuntime) (rts : List EVMRuntime) (ot : OutTx)
    (hcs : w.callStack = topAddr :: rest)
    (hrun : getRunner w.contracts topAddr = some runner)
    (hrts : runner.runtimeStack = rt :: rts)
    (hstop : st.stop = StopReason.NONE)
    (hout : st.newEngine.outgoingTx = some ot)
    (hkind : ot.txType = TxType.CREATE2 ∨ ot.txType = TxType.CALLCODE ∨
      ot.txType = TxType.DELEGATECALL) :
    (loopIter st w).2 = IterOut.errored
      (if ot.txType = TxType.CREATE2 then WErr.txTypeNotImplemented
       else WErr.unsupportedTxType) ∧
    noncesOf (loopIter st w).1.contracts = noncesOf w.contracts := by
  have hne : ¬(w.txQueue = [] ∧ w.callStack = []) := by simp [hcs]
  have hA : phaseA w = (w, none) := by
    unfold phaseA; rw [hcs]
  have hnonces : ∀ e : EngineState,
      noncesOf (setRunner w.contracts topAddr (setTopEngine runner e)) =
        noncesOf w.contracts := by
    intro e
    refine noncesOf_setRunner_same_nonce _ _ _ ?_
    intro r0 h0
    rw [hrun] at h0
    cases h0
    exact setTopEngine_nonce _ _
  unfold loopIter
  rw [if_neg hne, hA]
  unfold phaseB
  simp only [hcs, hrun, hrts, hstop, hout]
  rcases hkind with hk | hk | hk
  · -- CREATE2 is dispatched into _handle_CREATE and raises there, before
    -- the nonce increment and before any deploy
    rw [hk]
    unfold handleCREATE
    simp only [hcs, getRunner_setRunner_self _ _ _ _ hrun,
      setTopEngine_runtimeStack _ _ _ _ hrts, hout]
    simp [hk, hnonces]
  · rw [hk]
    simp [hnonces]
  · rw [hk]
    simp [hnonces]

open World in
/-- Witness for C2: in the concrete world c2World the DELEGATECALL
sub-transaction of c2Step makes the loop error with the unsupported-kind
error, and the contracts map keeps address 10 with nonce 1. -/
theorem C2_unsupported_subcall_raises_witness :
    c2World.callStack = 10 :: [] ∧
    getRunner c2World.contracts 10 = some ⟨10, 1, [EVMRuntime.fresh], true⟩ ∧
    c2Step.newEngine.outgoingTx = some ⟨TxType.DELEGATECALL, 10, 0, [], 0, 0⟩ ∧
    (loopIter c2Step c2World).2 = IterOut.errored WErr.unsupportedTxType ∧
    noncesOf (loopIter c2Step c2World).1.contracts = [(10, 1)] := by
  have h := C2_unsupported_subcall_raises c2Step c2World
    10 [] ⟨10, 1, [EVMRuntime.fresh], true⟩ EVMRuntime.fresh []
    ⟨TxType.DELEGATECALL, 10, 0, [], 0, 0⟩
    rfl rfl rfl rfl rfl (Or.inr (Or.inr rfl))
  refine ⟨rfl, rfl, rfl, ?_, ?_⟩
  · simpa using h.1
  · rw [h.2]; rfl

/-! ## Claim C4 -/

namespace World

theorem handleCREATE_txNum (w : EVMWorld) :
    (handleCREATE w).1.currentTxNum = w.currentTxNum := by
  unfold handleCREATE
  repeat'
    first
    | rfl
    | split
    | dsimp only

theorem handleCREATEAfter_txNum (s : Bool) (w : EVMWorld) :
    (handleCREATEAfter s w).1.currentTxNum = w.currentTxNum := by
  unfold handleCREATEAfter
  repeat'
    first
    | rfl
    | split
    | dsimp only

theorem handleCALL_txNum (w : EVMWorld) :
    (handleCALL w).1.currentTxNum = w.currentTxNum := by
  unfold handleCALL
  repeat'
    first
    | rfl
    | split
    | dsimp only

theorem exitSetCallerResult_txNum (st : EngineStep) (w : EVMWorld)
    (rest : List Nat) :
    (exitSetCallerResult st w rest).1.currentTxNum = w.currentTxNum := by
  unfold exitSetCallerResult
  repeat'
    first
    | rfl
    | split
    | dsimp only

theorem exitRevert_txNum (w : EVMWorld) (topAddr : Nat) :
    (exitRevert w topAddr).currentTxNum = w.currentTxNum := by
  unfold exitRevert
  repeat'
    first
    | rfl
    | split
    | dsimp only

theorem exitCreateHook_txNum (s : Bool) (w : EVMWorld) (topAddr : Nat) :
    (exitCreateHook s w topAddr).1.currentTxNum = w.currentTxNum := by
  unfold exitCreateHook
  repeat'
    first
    | rfl
    | (exact handleCREATEAfter_txNum s w)
    | split
    | dsimp only

theorem exitPopRuntime_txNum (w : EVMWorld) (topAddr : Nat) :
    (exitPopRuntime w topAddr).1.currentTxNum = w.currentTxNum := by
  unfold exitPopRuntime
  repeat'
    first
    | rfl
    | split
    | dsimp only

theorem exitCallHook_txNum (s : Bool) (w : EVMWorld) (rest : List Nat)
    (b : Bool) :
    (exitCallHook s w rest b).1.currentTxNum = w.currentTxNum := by
  unfold exitCallHook
  repeat'
    first
    | rfl
    | split
    | dsimp only

/-- The result of the CREATE/CALL dispatch match keeps the transaction
counter of the world it was given. -/
theorem dispatch_txNum (f : EVMWorld → EVMWorld × Option WErr)
    (hf : ∀ w, (f w).1.currentTxNum = w.currentTxNum) (w : EVMWorld) :
    (match f w with
     | (w3, none) => (w3, IterOut.next)
     | (w3, some e) => (w3, IterOut.errored e)).1.currentTxNum =
      w.currentTxNum := by
  rcases h : f w with ⟨w3, e⟩
  have hw := hf w
  rw [h] at hw
  cases e <;> simpa [h] using hw

theorem exitStep_txNum (st : EngineStep) (w : EVMWorld) :
    (exitStep st w).1.currentTxNum = w.currentTxNum := by
  rcases hcs : w.callStack with _ | ⟨topAddr, rest⟩ <;>
    unfold exitStep <;> simp only [hcs]
  rcases h1 : exitSetCallerResult st w rest with ⟨w1, b1, e1⟩
  have he1 : w1.currentTxNum = w.currentTxNum := by
    have h := exitSetCallerResult_txNum st w rest
    rw [h1] at h
    simpa using h
  cases e1 with
  | some e => simpa using he1
  | none =>
    have he2 : (if st.exitStatus = TxRes.Revert then exitRevert w1 topAddr
        else w1).currentTxNum = w1.currentTxNum := by
      split
      · exact exitRevert_txNum w1 topAddr
      · rfl
    set w2 : EVMWorld := if st.exitStatus = TxRes.Revert then
      exitRevert w1 topAddr else w1 with hw2
    rcases h3 : exitCreateHook (st.exitStatus = TxRes.Stop ||
      st.exitStatus = TxRes.Return) w2 topAddr with ⟨w3, e3⟩
    have he3 : w3.currentTxNum = w2.currentTxNum := by
      have h := exitCreateHook_txNum (st.exitStatus = TxRes.Stop ||
        st.exitStatus = TxRes.Return) w2 topAddr
      rw [h3] at h
      simpa using h
    cases e3 with
    | some e => simp [h3]; omega
    | none =>
      rcases h4 : exitPopRuntime w3 topAddr with ⟨w4, e4⟩
      have he4 : w4.currentTxNum = w3.currentTxNum := by
        have h := exitPopRuntime_txNum w3 topAddr
        rw [h4] at h
        simpa using h
      cases e4 with
      | some e => simp [h3, h4]; omega
      | none =>
        rcases h5 : exitCallHook (st.exitStatus = TxRes.Stop ||
          st.exitStatus = TxRes.Return) w4 rest b1 with ⟨w5, e5⟩
        have he5 : w5.currentTxNum = w4.currentTxNum := by
          have h := exitCallHook_txNum (st.exitStatus = TxRes.Stop ||
            st.exitStatus = TxRes.Return) w4 rest b1
          rw [h5] at h
          simpa using h
        cases e5 with
        | some e => simp [h3, h4, h5]; omega
        | none => simp [h3, h4, h5]; omega

theorem phaseA_txNum (w : EVMWorld) :
    (phaseA w).1.currentTxNum = w.currentTxNum + dequeueCount w := by
  unfold phaseA dequeueCount
  repeat'
    first
    | split
    | dsimp only
  all_goals simp_all

theorem phaseB_txNum (st : EngineStep) (w : EVMWorld) :
    (phaseB st w).1.currentTxNum = w.currentTxNum + subcallFlagB st w := by
  rcases hcs : w.callStack with _ | ⟨topAddr, rest⟩
  · have hready : phaseBReady w = false := by
      unfold phaseBReady; rw [hcs]
    unfold phaseB
    rw [hcs]
    simp [subcallFlagB, hready]
  · rcases hrun : getRunner w.contracts topAddr with _ | runner
    · have hready : phaseBReady w = false := by
        unfold phaseBReady; rw [hcs]; simp only [hrun]
      unfold phaseB
      rw [hcs]
      simp [subcallFlagB, hrun, hready]
    · rcases hrts : runner.runtimeStack with _ | ⟨rt, rts⟩
      · have hready : phaseBReady w = false := by
          unfold phaseBReady; rw [hcs]; simp only [hrun, hrts]
        unfold phaseB
        rw [hcs]
        simp [subcallFlagB, hrun, hrts, hready]
      · have hready : phaseBReady w = true := by
          unfold phaseBReady; rw [hcs]; simp only [hrun, hrts]
        unfold phaseB
        rw [hcs]
        simp only [hrun, hrts]
        rcases hstop : st.stop
        · -- EXIT: no sub-call increment
          have hflag : subcallFlagB st w = 0 := by
            unfold subcallFlagB; simp [hstop]
          rw [hflag]
          simp [exitStep_txNum]
        · -- NONE
          rcases hout : st.newEngine.outgoingTx with _ | out
          · have hflag : subcallFlagB st w = 0 := by
              unfold subcallFlagB; simp [hout]
            rw [hflag]
            simp
          · have hflag : subcallFlagB st w = 1 := by
              unfold subcallFlagB; simp [hready, hstop, hout]
            rw [hflag]
            simp only
            rcases htt : out.txType
            all_goals simp only
            · -- CALL
              split <;> rename_i hH
              · rename_i w3
                have hT := congrArg (fun p => (Prod.fst p).currentTxNum) hH
                dsimp only at hT
                rw [handleCALL_txNum] at hT
                simp at hT
                dsimp only
                omega
              · rename_i w3 e
                have hT := congrArg (fun p => (Prod.fst p).currentTxNum) hH
                dsimp only at hT
                rw [handleCALL_txNum] at hT
                simp at hT
                dsimp only
                omega
            · -- CREATE
              split <;> rename_i hH
              · rename_i w3
                have hT := congrArg (fun p => (Prod.fst p).currentTxNum) hH
                dsimp only at hT
                rw [handleCREATE_txNum] at hT
                simp at hT
                dsimp only
                omega
              · rename_i w3 e
                have hT := congrArg (fun p => (Prod.fst p).currentTxNum) hH
                dsimp only at hT
                rw [handleCREATE_txNum] at hT
                simp at hT
                dsimp only
                omega
            · -- CREATE2
              split <;> rename_i hH
              · rename_i w3
                have hT := congrArg (fun p => (Prod.fst p).currentTxNum) hH
                dsimp only at hT
                rw [handleCREATE_txNum] at hT
                simp at hT
                dsimp only
                omega
              · rename_i w3 e
                have hT := congrArg (fun p => (Prod.fst p).currentTxNum) hH
                dsimp only at hT
                rw [handleCREATE_txNum] at hT
                simp at hT
                dsimp only
                omega
        · -- OTHER: no sub-call increment
          have hflag : subcallFlagB st w = 0 := by
            unfold subcallFlagB; simp [hstop]
          rw [hflag]
          simp

end World

open World in
/-- C4: across any execution of the run loop, current_tx_num is
incremented exactly once per dequeued top-level transaction and exactly
once per nested sub-call (each engine stop with reason NONE and a
non-null outgoing transaction, including sub-calls of unsupported type
that make the loop raise), and is therefore monotonically increasing
along the whole run. -/
theorem C4_tx_num_counting :
    (∀ (st : EngineStep) (w : EVMWorld),
      (loopIter st w).1.currentTxNum =
        w.currentTxNum + dequeueCount w + subcallCount st w) ∧
    (∀ (steps : List EngineStep) (w : EVMWorld),
      w.currentTxNum ≤ (runLoop steps w).currentTxNum) := by
  have hiter : ∀ (st : EngineStep) (w : EVMWorld),
      (loopIter st w).1.currentTxNum =
        w.currentTxNum + dequeueCount w + subcallCount st w := by
    intro st w
    by_cases hfin : w.txQueue = [] ∧ w.callStack = []
    · have hd : dequeueCount w = 0 := by
        simp [dequeueCount, hfin.1, hfin.2]
      have hs : subcallCount st w = 0 := by
        simp [subcallCount, hfin]
      unfold loopIter
      simp [hfin, hd, hs]
    · rcases hA : phaseA w with ⟨w1, err⟩
      have hA1 : w1.currentTxNum = w.currentTxNum + dequeueCount w := by
        have h := phaseA_txNum w
        rw [hA] at h
        simpa using h
      cases err with
      | some e =>
        have hs : subcallCount st w = 0 := by
          simp [subcallCount, hfin, hA]
        unfold loopIter
        rw [if_neg hfin]
        simp [hA, hA1, hs]
      | none =>
        have hs : subcallCount st w = subcallFlagB st w1 := by
          simp [subcallCount, hfin, hA]
        unfold loopIter
        rw [if_neg hfin]
        simp only [hA]
        rw [phaseB_txNum st w1, hA1, hs]
  refine ⟨hiter, ?_⟩
  intro steps
  induction steps with
  | nil => intro w; simp [runLoop]
  | cons st rest ih =>
    intro w
    have h1 : w.currentTxNum ≤ (loopIter st w).1.currentTxNum := by
      rw [hiter st w]; omega
    unfold runLoop
    rcases hli : loopIter st w with ⟨w1, out⟩
    rw [hli] at h1
    cases out with
    | next => exact le_trans h1 (ih w1)
    | halted s => exact h1
    | errored e => exact h1
    | finished => exact h1

/-! ## Claim C8 -/

namespace Echidna

/-- One unfolding step of the while loop of get_available_filename when
the candidate name exists and the counter is below the bound. -/
theorem find_free_step (ex : String → Bool) (pre suff : String)
    (num fuel : Nat) (hex : ex (fname pre suff num) = true)
    (hlt : num < 100000) :
    find_free ex pre suff num (fuel + 1) = find_free ex pre suff (num + 1) fuel := by
  show (if ex (fname pre suff num) && decide (num < 100000) then
      find_free ex pre suff (num + 1) fuel else num) = _
  simp [hex, hlt]

/-- The loop stops at the first num whose candidate name does not exist,
provided enough fuel remains. -/
theorem find_free_finds_least (ex : String → Bool) (pre suff : String) :
    ∀ (fuel j n : Nat), j ≤ n → n - j < fuel →
    (∀ m, j ≤ m → m < n → ex (fname pre suff m) = true) →
    ex (fname pre suff n) = false → n < 100000 →
    find_free ex pre suff j fuel = n := by
  intro fuel
  induction fuel with
  | zero => intro j n _ h2 _ _ _; omega
  | succ f ih =>
    intro j n h1 h2 hall hfree hn
    by_cases hj : j = n
    · subst hj
      unfold find_free
      simp [hfree]
    · have hjn : j < n := lt_of_le_of_ne h1 hj
      rw [find_free_step ex pre suff j f (hall j le_rfl hjn) (lt_trans hjn hn)]
      exact ih (j + 1) n hjn (by omega)
        (fun m hm1 hm2 => hall m (by omega) hm2) hfree hn

/-- When every slot below the bound is taken, the loop runs to 100000. -/
theorem find_free_exhausts (ex : String → Bool) (pre suff : String)
    (hall : ∀ m, m < 100000 → ex (fname pre suff m) = true) :
    ∀ k, k ≤ 100000 → find_free ex pre suff (100000 - k) (k + 1) = 100000 := by
  intro k
  induction k with
  | zero =>
    intro _
    unfold find_free
    simp
  | succ k ih =>
    intro hk
    have hlt : 100000 - (k + 1) < 100000 := by omega
    rw [find_free_step ex pre suff _ _ (hall _ hlt) hlt]
    have harith : 100000 - (k + 1) + 1 = 100000 - k := by omega
    rw [harith]
    exact ih (by omega)

end Echidna

open Echidna in
/-- C8: get_available_filename returns prefix_n suffix for the smallest
n such that no file of that name exists, always with n < 100000, and
raises a GenericException when every n in 0..99999 is taken, with the
file-existence predicate quantified as an input. -/
theorem C8_filename_allocator (ex : String → Bool) (pre suff : String) :
    ((∀ m, m < 100000 → ex (fname pre suff m) = true) →
      get_available_filename ex pre suff = Except.error EErr.filenameExhausted) ∧
    (∀ n, n < 100000 → ex (fname pre suff n) = false →
      (∀ m, m < n → ex (fname pre suff m) = true) →
      get_available_filename ex pre suff = Except.ok (fname pre suff n)) := by
  constructor
  · intro hall
    have h := find_free_exhausts ex pre suff hall 100000 le_rfl
    simp only [Nat.sub_self] at h
    unfold get_available_filename
    rw [h]
    simp
  · intro n hn hfree hbelow
    have h := find_free_finds_least ex pre suff 100001 0 n (Nat.zero_le n)
      (by omega) (fun m _ hm => hbelow m hm) hfree hn
    unfold get_available_filename
    rw [h]
    simp [Nat.not_le.mpr hn]

open Echidna in
/-- Witness for C8: with slots 0 and 1 taken, the allocator returns the
name with index 2. -/
theorem C8_filename_allocator_witness :
    (2 : Nat) < 100000 ∧
    (fun s => s = "p_0.txt" || s = "p_1.txt" : String → Bool)
      (fname "p" ".txt" 2) = false ∧
    get_available_filename (fun s => s = "p_0.txt" || s = "p_1.txt") "p" ".txt" =
      Except.ok (fname "p" ".txt" 2) := by
  refine ⟨by decide, by decide, ?_⟩
  exact (C8_filename_allocator (fun s => s = "p_0.txt" || s = "p_1.txt")
    "p" ".txt").2 2 (by decide) (by decide)
    (fun m hm => by
      interval_cases m <;> decide)

/-! ## Claim C9 -/

open Echidna in
/-- C9: translate_argument derives the element ABI type of AbiArray and
AbiArrayDynamic from the translation of the FIRST element, never from
the declared element-type field carried in the JSON (the result is
independent of that field), and translating an array whose element list
is empty fails with an out-of-range index error instead of returning a
type string. -/
theorem C9_array_type_from_first_element :
    (∀ (n : Nat) (d1 d2 : String) (elems : List AbiArg),
      translate_argument (AbiArg.abiArray n d1 elems) =
        translate_argument (AbiArg.abiArray n d2 elems) ∧
      translate_argument (AbiArg.abiArrayDynamic d1 elems) =
        translate_argument (AbiArg.abiArrayDynamic d2 elems)) ∧
    (∀ (n : Nat) (d : String),
      translate_argument (AbiArg.abiArray n d []) = Except.error EErr.indexError ∧
      translate_argument (AbiArg.abiArrayDynamic d []) =
        Except.error EErr.indexError ∧
      parse_array [] = Except.error EErr.indexError) ∧
    (∀ (n : Nat) (d : String) (a : AbiArg) (as : List AbiArg) (t : String)
      (v : TValue) (rs : List (String × TValue)),
      translate_argument a = Except.ok (t, v) →
      translate_list as = Except.ok rs →
      translate_argument (AbiArg.abiArray n d (a :: as)) =
        Except.ok (t ++ "[" ++ toString n ++ "]",
          TValue.list (v :: rs.map (fun p => p.2)))) := by
  refine ⟨fun n d1 d2 elems => ⟨rfl, rfl⟩, fun n d => ⟨rfl, rfl, rfl⟩, ?_⟩
  intro n d a as t v rs h1 h2
  unfold translate_argument translate_list
  rw [h1, h2]
  simp

open Echidna in
/-- Witness for C9: a two-element uint8 array translates to uint8[2]
from the head translation. -/
theorem C9_array_type_from_first_element_witness :
    translate_argument (AbiArg.abiUInt 8 1) = Except.ok ("uint8", TValue.int 1) ∧
    translate_list [AbiArg.abiUInt 8 2] =
      Except.ok [("uint8", TValue.int 2)] ∧
    translate_argument
        (AbiArg.abiArray 2 "declared" [AbiArg.abiUInt 8 1, AbiArg.abiUInt 8 2]) =
      Except.ok ("uint8" ++ "[" ++ toString 2 ++ "]",
        TValue.list (TValue.int 1 :: [("uint8", TValue.int 2)].map (fun p => p.2))) := by
  refine ⟨rfl, rfl, ?_⟩
  exact C9_array_type_from_first_element.2.2 2 "declared" (AbiArg.abiUInt 8 1)
    [AbiArg.abiUInt 8 2] "uint8" (TValue.int 1) [("uint8", TValue.int 2)] rfl rfl

/-! ## Claim C10 -/

namespace Echidna

/-- Appending distinct tails to the same string gives distinct strings. -/
theorem string_append_ne (a : String) {b c : String}
    (h : b.data ≠ c.data) : a ++ b ≠ a ++ c := by
  intro he
  apply h
  have hd := congrArg String.data he
  rw [String.data_append, String.data_append] at hd
  exact List.append_cancel_left hd

/-- VarContext.set leaves the new binding in the context. -/
theorem set_mem_self (c : VarContext) (n : String) (v : Int) (sz : Nat) :
    (n, v, sz) ∈ (c.set n v sz).entries := by
  rcases c with ⟨entries⟩
  induction entries with
  | nil => simp [VarContext.set, VarContext.setRec]
  | cons e t ih =>
    by_cases he : e.1 = n
    · simp [VarContext.set, VarContext.setRec, he]
    · simp only [VarContext.set, VarContext.setRec, if_neg he]
      simp only [VarContext.set] at ih
      simp [ih]

/-- VarContext.set keeps every binding whose name differs from the one
being set. -/
theorem set_mem_preserve_aux : ∀ (l : List (String × Int × Nat)) (n : String)
    (v : Int) (sz : Nat) (p : String × Int × Nat), p ∈ l → p.1 ≠ n →
    p ∈ VarContext.setRec l n v sz := by
  intro l
  induction l with
  | nil =>
    intro n v sz p hp _
    simp at hp
  | cons e t ih =>
    intro n v sz p hp hne
    rcases List.mem_cons.mp hp with hp | hp
    · subst hp
      simp [VarContext.setRec, hne]
    · by_cases he : e.1 = n
      · simp [VarContext.setRec, he]
        exact Or.inr hp
      · simp only [VarContext.setRec, if_neg he, List.mem_cons]
        exact Or.inr (ih n v sz p hp hne)

/-- VarContext.set keeps every binding whose name differs from the one
being set. -/
theorem set_mem_preserve (c : VarContext) (n : String) (v : Int) (sz : Nat)
    (p : String × Int × Nat) (hp : p ∈ c.entries) (hne : p.1 ≠ n) :
    p ∈ (c.set n v sz).entries :=
  set_mem_preserve_aux c.entries n v sz p hp hne

end Echidna

open Echidna in
/-- C10: for every transaction JSON accepted by load_tx, the resulting
AbstractTx uses a single 160-bit symbolic variable named txName_sender,
seeded from the _src field, as BOTH the origin and the sender of the EVM
transaction, while gas_price and gas_limit are concrete 256-bit
constants taken from the primed gasprice and gas JSON keys. -/
theorem C10_load_tx_sender_and_gas (tx : EchidnaTx) (txName : String)
    (lt : AbstractTx) (h : load_tx tx txName = Except.ok lt) :
    lt.tx.origin = Value.var 160 (txName ++ "_sender") ∧
    lt.tx.sender = Value.var 160 (txName ++ "_sender") ∧
    (txName ++ "_sender", tx.src, 160) ∈ lt.ctx.entries ∧
    lt.tx.gas_price = Value.cst 256 tx.gasprice ∧
    lt.tx.gas_limit = Value.cst 256 tx.gas := by
  unfold load_tx at h
  split at h
  · exact absurd h (by simp)
  · split at h
    · exact absurd h (by simp)
    · rename_i translated heq
      injection h with h
      subst h
      refine ⟨rfl, rfl, ?_, rfl, rfl⟩
      have hsv : (txName ++ "_sender") ≠ (txName ++ "_value") :=
        string_append_ne txName (by decide)
      exact set_mem_preserve _ _ _ _ _ (set_mem_self _ _ _ _) hsv

open Echidna in
/-- Witness for C10 at the concrete transaction c10Tx. -/
theorem C10_load_tx_sender_and_gas_witness :
    load_tx c10Tx "tx0" = Except.ok c10Loaded ∧
    (c10Loaded.tx.origin = Value.var 160 ("tx0" ++ "_sender") ∧
     c10Loaded.tx.sender = Value.var 160 ("tx0" ++ "_sender") ∧
     ("tx0" ++ "_sender", c10Tx.src, 160) ∈ c10Loaded.ctx.entries ∧
     c10Loaded.tx.gas_price = Value.cst 256 c10Tx.gasprice ∧
     c10Loaded.tx.gas_limit = Value.cst 256 c10Tx.gas) :=
  ⟨rfl, C10_load_tx_sender_and_gas c10Tx "tx0" c10Loaded rfl⟩

/-! ## Claim C5 -/

namespace Echidna

/-- With an empty model, update_argument is the identity with no error:
the early-return guard (no model variable contains the argument name)
always fires. -/
theorem update_argument_empty (arg : AbiArg) (n : String) :
    update_argument arg n VarContext.empty = (arg, none) := by
  unfold update_argument
  simp [VarContext.containedVars, VarContext.empty]

/-- With an empty model the element loop leaves every element in place. -/
theorem update_arg_list_empty : ∀ (l : List AbiArg) (base sep : String)
    (i : Nat), update_arg_list l base sep i VarContext.empty = (l, none) := by
  intro l
  induction l with
  | nil => intro base sep i; rfl
  | cons a t ih =>
    intro base sep i
    unfold update_arg_list
    rw [update_argument_empty, ih]

end Echidna

open Echidna in
/-- C5 (amended): for every transaction whose _call carries an argument
list, update_tx under the empty model returns a transaction equal to the
original and leaves the original untouched.  (The original claim also
covered transactions without an argument list; those are refuted by the
counterexample below.) -/
theorem C5_empty_model_identity (tx : EchidnaTx) (txName : String)
    (args : List AbiArg) (h : tx.call.args = some args) :
    update_tx tx VarContext.empty txName = (Except.ok tx, tx) := by
  obtain ⟨⟨tag, name, args0⟩, src, dst, value, gas, gasprice, d1, d2⟩ := tx
  simp only at h
  subst h
  unfold update_tx
  dsimp only
  rw [update_arg_list_empty]
  rfl

open Echidna in
/-- Witness for C5 at the concrete one-argument transaction c5Tx. -/
theorem C5_empty_model_identity_witness :
    c5Tx.call.args = some [AbiArg.abiUInt 8 1] ∧
    update_tx c5Tx VarContext.empty "tx0" = (Except.ok c5Tx, c5Tx) :=
  ⟨rfl, C5_empty_model_identity c5Tx "tx0" [AbiArg.abiUInt 8 1] rfl⟩

open Echidna in
/-- Counterexample for C5 as stated: the transaction c5NoArgs has tag
SolCall and no argument list; load_tx accepts it, but update_tx under
the empty model raises the IndexError of reading contents[1], instead of
returning a JSON value semantically equal to the original. -/
theorem C5_no_arg_list_counterexample :
    load_tx c5NoArgs "tx0" = Except.ok c5NoArgsLoaded ∧
    (update_tx c5NoArgs VarContext.empty "tx0").1 =
      Except.error EErr.indexError ∧
    (update_tx c5NoArgs VarContext.empty "tx0").1 ≠ Except.ok c5NoArgs := by
  refine ⟨rfl, rfl, ?_⟩
  intro h
  rw [show (update_tx c5NoArgs VarContext.empty "tx0").1 =
    Except.error EErr.indexError from rfl] at h
  exact Except.noConfusion h

/-! ## Claim C6 -/

open Echidna in
/-- C6 evaluated at the failing input: tx.copy() in update_tx is a
SHALLOW copy, so update_argument mutates the nested _call argument of
the dict the caller passed in (42 becomes 5) and the _delay list write
is visible there too (8 becomes 9); the input dict does NOT hold the
same values after the call, contradicting the claim and the source
comment "Copy transaction to avoid in-place modifications". -/
theorem C6_update_tx_mutates_caller_dict :
    c6Tx.call.args = some [AbiArg.abiUInt 256 42] ∧
    c6Tx.delay = (7, 8) ∧
    (update_tx c6Tx c6Model "tx0").2.call.args =
      some [AbiArg.abiUInt 256 5] ∧
    (update_tx c6Tx c6Model "tx0").2.delay = (7, 9) ∧
    (update_tx c6Tx c6Model "tx0").2 ≠ c6Tx := by
  refine ⟨rfl, rfl, rfl, rfl, ?_⟩
  intro h
  have h2 : ((7 : Int), (9 : Int)) = ((7 : Int), (8 : Int)) := by
    calc ((7 : Int), (9 : Int))
        = (update_tx c6Tx c6Model "tx0").2.delay := rfl
      _ = c6Tx.delay := by rw [h]
      _ = ((7 : Int), (8 : Int)) := rfl
  simp at h2


/-! ## Claim C7 -/

namespace Echidna

theorem get_some_mem (m : VarContext) (n : String) (v : Int)
    (h : m.get n = some v) : n ∈ m.containedVars := by
  unfold VarContext.get VarContext.getEntry at h
  cases hf : m.entries.find? (fun p => p.1 = n) with
  | none => rw [hf] at h; simp at h
  | some p =>
    have hpred := List.find?_some hf
    have hmem := List.mem_of_find?_eq_some hf
    simp at hpred
    unfold VarContext.containedVars
    exact hpred ▸ List.mem_map_of_mem (fun q => q.1) hmem

theorem contains_mem (m : VarContext) (n : String)
    (h : m.contains n = true) : n ∈ m.containedVars := by
  unfold VarContext.contains at h
  rcases Option.isSome_iff_exists.mp h with ⟨v, hv⟩
  exact get_some_mem m n v hv

theorem pref_child (argName s : String) :
    (argName ++ "_").data <+: (argName ++ "_" ++ s).data := by
  rw [String.data_append (argName ++ "_") s]
  exact List.prefix_append _ _

theorem pref_child_sep (argName s : String) :
    (argName ++ "_").data <+: ((argName ++ "_" ++ s) ++ "_").data := by
  refine (pref_child argName s).trans ?_
  rw [String.data_append]
  exact List.prefix_append _ _

theorem updateBytes_no_contains (m : VarContext) (argName : String)
    (hc : ∀ j : Nat, m.contains (argName ++ "_" ++ toString j) = false) :
    ∀ (steps i : Nat) (val : List Int),
      updateBytes m argName val i steps = (val, none) := by
  intro steps
  induction steps with
  | zero => intro i val; rfl
  | succ s ih =>
    intro i val
    unfold updateBytes
    dsimp only
    rw [hc i]
    simp [ih]

theorem update_argument_untouched_aux : ∀ (N : Nat) (arg : AbiArg),
    sizeOf arg ≤ N → ∀ (argName : String) (m : VarContext),
    m.get argName = none →
    (∀ v ∈ m.containedVars, ¬ ((argName ++ "_").data <+: v.data)) →
    (update_argument arg argName m).1 = arg := by
  intro N
  induction N using Nat.strong_induction_on with
  | _ N ihN =>
  intro arg hsz argName m hget hpre
  have hchildget : ∀ s : String, m.get (argName ++ "_" ++ s) = none := by
    intro s
    cases hc : m.get (argName ++ "_" ++ s) with
    | none => rfl
    | some v =>
      exact absurd (pref_child argName s)
        (hpre _ (get_some_mem _ _ _ hc))
  have hchildpre : ∀ s : String, ∀ v ∈ m.containedVars,
      ¬ (((argName ++ "_" ++ s) ++ "_").data <+: v.data) := by
    intro s v hv hp
    exact hpre v hv ((pref_child_sep argName s).trans hp)
  have hcontains : ∀ s : String, m.contains (argName ++ "_" ++ s) = false := by
    intro s
    cases hb : m.contains (argName ++ "_" ++ s) with
    | false => rfl
    | true =>
      exact absurd (pref_child argName s) (hpre _ (contains_mem _ _ hb))
  have hlist : ∀ (l : List AbiArg), (∀ a ∈ l, sizeOf a < N) → ∀ i : Nat,
      (update_arg_list l argName "_" i m).1 = l := by
    intro l
    induction l with
    | nil => intro _ i; rfl
    | cons a t iht =>
      intro hl i
      have ha : (update_argument a (argName ++ "_" ++ toString i) m).1 = a :=
        ihN (sizeOf a) (hl a (List.mem_cons_self a t)) a le_rfl
          (argName ++ "_" ++ toString i) m (hchildget (toString i))
          (hchildpre (toString i))
      rcases hu : update_argument a (argName ++ "_" ++ toString i) m
        with ⟨a1, err⟩
      have ha1 : a1 = a := by rw [hu] at ha; exact ha
      cases err with
      | some e =>
        unfold update_arg_list
        rw [hu]
        simp [ha1]
      | none =>
        unfold update_arg_list
        rw [hu]
        rcases ht : update_arg_list t argName "_" (i + 1) m with ⟨t1, err2⟩
        have ht1 : t1 = t := by
          have h3 := iht (fun b hb => hl b (List.mem_cons_of_mem a hb)) (i + 1)
          rw [ht] at h3
          exact h3
        simp [ha1, ht1]
  unfold update_argument
  by_cases hguard : (m.containedVars.all fun v => ! strContains v argName) = true
  · simp [hguard]
  · simp only [Bool.not_eq_true] at hguard
    simp only [hguard, Bool.false_eq_true, if_false]
    cases arg with
    | abiUInt bits v => dsimp only; rw [hget]
    | abiInt bits v => dsimp only; rw [hget]
    | abiAddress v => dsimp only; rw [hget]
    | abiBool v => dsimp only; rw [hget]
    | abiBytes len octets =>
      dsimp only
      rw [updateBytes_no_contains m argName
        (fun j => hcontains (toString j)) len 0 (echidna_parse_bytes octets)]
      rfl
    | abiTuple elems =>
      have hsub : ∀ a ∈ elems, sizeOf a < N := by
        intro a ha
        have h1 : sizeOf a < sizeOf (AbiArg.abiTuple elems) := by
          have h2 := List.sizeOf_lt_of_mem ha
          simp only [AbiArg.abiTuple.sizeOf_spec]
          omega
        omega
      rcases hl : update_arg_list elems argName "_" 0 m with ⟨l1, err⟩
      have hle : l1 = elems := by
        have h3 := hlist elems hsub 0
        rw [hl] at h3
        exact h3
      dsimp only
      rw [hl, hle]
    | abiArray numElems declared elems =>
      have hsub : ∀ a ∈ elems, sizeOf a < N := by
        intro a ha
        have h1 : sizeOf a < sizeOf (AbiArg.abiArray numElems declared elems) := by
          have h2 := List.sizeOf_lt_of_mem ha
          simp only [AbiArg.abiArray.sizeOf_spec]
          omega
        omega
      rcases hl : update_arg_list elems argName "_" 0 m with ⟨l1, err⟩
      have hle : l1 = elems := by
        have h3 := hlist elems hsub 0
        rw [hl] at h3
        exact h3
      dsimp only
      rw [hl, hle]
    | abiArrayDynamic declared elems =>
      have hsub : ∀ a ∈ elems, sizeOf a < N := by
        intro a ha
        have h1 : sizeOf a < sizeOf (AbiArg.abiArrayDynamic declared elems) := by
          have h2 := List.sizeOf_lt_of_mem ha
          simp only [AbiArg.abiArrayDynamic.sizeOf_spec]
          omega
        omega
      rcases hl : update_arg_list elems argName "_" 0 m with ⟨l1, err⟩
      have hle : l1 = elems := by
        have h3 := hlist elems hsub 0
        rw [hl] at h3
        exact h3
      dsimp only
      rw [hl, hle]
    | abiOther tag => rfl

end Echidna

open Echidna in
/-- C7: update_argument overwrites an argument value only if the model
contains the corresponding variable name (exactly arg_name for the
scalar tags, or a descendant arg_name_i... for bytes octets and
tuple/array elements), and leaves the argument value unchanged when the
model contains no such variable: when arg_name itself is absent from the
model and no model variable extends arg_name followed by an underscore,
the stored argument after the call (first component, the in-place state,
whether or not an error escaped) equals the original.  Overwriting thus
implies the model contained a corresponding variable. -/
theorem C7_no_corresponding_var_untouched (arg : AbiArg) (argName : String)
    (m : VarContext) (hget : m.get argName = none)
    (hpre : ∀ v ∈ m.containedVars, ¬ ((argName ++ "_").data <+: v.data)) :
    (update_argument arg argName m).1 = arg :=
  update_argument_untouched_aux (sizeOf arg) arg le_rfl argName m hget hpre

open Echidna in
/-- Witness for C7: a tuple argument named t_arg0 against a model that
only binds t_arg1 is left untouched. -/
theorem C7_no_corresponding_var_untouched_witness :
    (⟨[("t_arg1", 9, 256)]⟩ : VarContext).get "t_arg0" = none ∧
    (∀ v ∈ (⟨[("t_arg1", 9, 256)]⟩ : VarContext).containedVars,
      ¬ (("t_arg0" ++ "_").data <+: v.data)) ∧
    (update_argument (AbiArg.abiTuple [AbiArg.abiUInt 8 3]) "t_arg0"
      ⟨[("t_arg1", 9, 256)]⟩).1 = AbiArg.abiTuple [AbiArg.abiUInt 8 3] := by
  refine ⟨rfl, by decide, ?_⟩
  exact C7_no_corresponding_var_untouched (AbiArg.abiTuple [AbiArg.abiUInt 8 3])
    "t_arg0" ⟨[("t_arg1", 9, 256)]⟩ rfl (by decide)

end Optik
